import Mathlib

/-!
Shallow embedding of the Tradingview-to-bridge signal/command pipeline.

Server side (src/server/storage.ts, src/server/routes.ts): the in-memory
store (`MemStorage`), the command state machine, the TradingView webhook
handler, the MT5 WebSocket connection replay and the execution-report
handler.  JavaScript `Map`s keyed by UUID are embedded as lists in insertion
order (`Map.set` on an existing key updates in place, on a fresh key appends;
keys are distinct UUIDs).  `Date` values are embedded as integer epoch
milliseconds.  Nullable string fields are `Option String`.

Remote-agent side (src/mt5-files/TradingViewWebSocket_EA.mq5): the trade
execution request builder (`ExecuteTrade`) and the staged partial-exit /
break-even pass (`ManagePartialExits`).  MQL5 `double` price and volume
arithmetic is embedded exactly over `ℚ`; the order-comment string
"TradingView|TP1:<price>" that carries the stage-1 target out-of-band is
embedded as the carried value itself (`Option ℚ`), since the agent writes
it if and only if a positive target is present and parses back the number.
-/

namespace Bridge

/-- Command status values used by `MemStorage` ('pending' | 'sent' |
'acknowledged' | 'failed'). -/
inductive CmdStatus where
  | pending
  | sent
  | acknowledged
  | failed
deriving DecidableEq, Repr

/-- `mt5Commands` record (shared/schema.ts `Mt5Command`); timestamps are epoch
milliseconds, nullable columns are `Option`. -/
structure Mt5Command where
  id : String
  action : String
  symbol : Option String
  cmdType : Option String
  volume : Option String
  stopLoss : Option String
  takeProfit : Option String
  positionId : Option String
  signalId : Option String
  status : CmdStatus
  createdAt : Int
  sentAt : Option Int
  acknowledgedAt : Option Int
  errorMessage : Option String
deriving DecidableEq, Repr

/-- `signals` record (shared/schema.ts `Signal`); `status` keeps the literal
strings the server assigns ('pending' | 'executed' | 'failed'). -/
structure Signal where
  id : String
  sigType : String
  symbol : String
  price : Option String
  source : String
  status : String
  errorMessage : Option String
  indicatorType : Option String
  entryPrice : Option String
  stopLoss : Option String
  takeProfit : Option String
  timestamp : Int
deriving DecidableEq, Repr

/-- `mt5ExecutionResults` record (shared/schema.ts `Mt5ExecutionResult`);
`success` keeps the string encoding 'true' | 'false' used by the server. -/
structure ExecResult where
  id : String
  commandId : Option String
  success : String
  orderId : Option String
  positionId : Option String
  errorMessage : Option String
  responseData : Option String
  executedAt : Int
deriving DecidableEq, Repr

/-- `trades` record (shared/schema.ts `Trade`): the open-Position record the
server creates when a TRADE command succeeds. -/
structure Trade where
  id : String
  signalId : Option String
  symbol : String
  tradeType : String
  openPrice : Option String
  volume : String
  mt5OrderId : Option String
  mt5PositionId : Option String
  stopLoss : Option String
  takeProfit : Option String
  status : String
  openTime : Int
deriving DecidableEq, Repr

/-- Server settings (shared/schema.ts `Settings`); `getSettings` guarantees a
record with defaults exists, so the embedding keeps it non-optional. -/
structure ServerSettings where
  mt5ApiSecret : Option String
  accountBalance : String
  autoTrade : String
  lastMt5Heartbeat : Option Int
deriving DecidableEq, Repr

/-- The `MemStorage` state: each JS `Map` becomes a list in insertion order. -/
structure Store where
  signals : List Signal
  trades : List Trade
  mt5Commands : List Mt5Command
  mt5ExecutionResults : List ExecResult
  settings : ServerSettings
deriving DecidableEq, Repr

/-! ## MemStorage command-queue operations (src/server/storage.ts) -/

/-- storage.ts `markCommandAsSent`: look up by id, set status 'sent' and the
sent timestamp.  On the list embedding this is a map that rewrites the
matching entry (a missing id leaves the store unchanged, as in the source). -/
def markCommandAsSentL (now : Int) (commandId : String) (cmds : List Mt5Command) :
    List Mt5Command :=
  cmds.map fun c =>
    if c.id = commandId then { c with status := .sent, sentAt := some now } else c

/-- storage.ts `markCommandAsAcknowledged`: set status 'acknowledged' and the
acknowledged timestamp, unconditionally on the looked-up command. -/
def markCommandAsAckL (now : Int) (commandId : String) (cmds : List Mt5Command) :
    List Mt5Command :=
  cmds.map fun c =>
    if c.id = commandId then { c with status := .acknowledged, acknowledgedAt := some now }
    else c

/-- storage.ts `markCommandAsFailed`: set status 'failed' and the error text,
unconditionally on the looked-up command. -/
def markCommandAsFailedL (msg : String) (commandId : String) (cmds : List Mt5Command) :
    List Mt5Command :=
  cmds.map fun c =>
    if c.id = commandId then { c with status := .failed, errorMessage := some msg } else c

/-- The timeout threshold of `retryTimedOutCommands` (60 seconds). -/
def commandTimeoutMs : Int := 60000

/-- The synthetic reason text `retryTimedOutCommands` writes. -/
def timeoutReason : String := "Command timeout - no acknowledgement received"

/-- The filter predicate of storage.ts `retryTimedOutCommands`: status 'sent',
a sent timestamp present, and elapsed strictly greater than the timeout. -/
def timedOut (now : Int) (c : Mt5Command) : Bool :=
  c.status = .sent &&
    match c.sentAt with
    | some t => decide (now - t > commandTimeoutMs)
    | none => false

/-- storage.ts `retryTimedOutCommands`: every timed-out 'sent' command is set
to 'failed' with the synthetic timeout reason; nothing else changes and no
command is created. -/
def retryTimedOutL (now : Int) (cmds : List Mt5Command) : List Mt5Command :=
  cmds.map fun c =>
    if timedOut now c then { c with status := .failed, errorMessage := some timeoutReason }
    else c

/-- The image of one command under the timeout sweep. -/
def sweepOne (now : Int) (c : Mt5Command) : Mt5Command :=
  if timedOut now c then { c with status := .failed, errorMessage := some timeoutReason }
  else c

theorem retryTimedOutL_eq_map (now : Int) (cmds : List Mt5Command) :
    retryTimedOutL now cmds = cmds.map (sweepOne now) := rfl

/-- storage.ts `enqueueCommand`: unconditionally append a fresh command in
status 'pending' with the creation timestamp; there is no duplicate check. -/
def enqueueCommandL (id : String) (now : Int) (action : String)
    (symbol cmdType volume stopLoss takeProfit positionId signalId : Option String)
    (cmds : List Mt5Command) : List Mt5Command :=
  cmds ++ [{ id := id, action := action, symbol := symbol, cmdType := cmdType,
             volume := volume, stopLoss := stopLoss, takeProfit := takeProfit,
             positionId := positionId, signalId := signalId, status := .pending,
             createdAt := now, sentAt := none, acknowledgedAt := none,
             errorMessage := none }]

/-- storage.ts `getPendingCommands`: both 'pending' and 'sent' commands (a
'sent' command is not yet confirmed). -/
def getPendingCommandsL (cmds : List Mt5Command) : List Mt5Command :=
  cmds.filter fun c => c.status = .pending || c.status = .sent

/-- storage.ts `getCommandById` on the list embedding. -/
def getCommandByIdL (commandId : String) (cmds : List Mt5Command) : Option Mt5Command :=
  cmds.find? fun c => c.id = commandId

/-- storage.ts `updateSignalStatus`: the optional third argument follows the
source (`errorMessage?`): outer `none` means the argument was omitted and the
stored error text is untouched; `some e` stores `e` (possibly null). -/
def updateSignalStatusL (id status : String) (errArg : Option (Option String))
    (sigs : List Signal) : List Signal :=
  sigs.map fun s =>
    if s.id = id then
      { s with status := status,
               errorMessage := match errArg with
                 | some e => e
                 | none => s.errorMessage }
    else s

/-- storage.ts `getSignalById` on the list embedding. -/
def getSignalByIdL (id : String) (sigs : List Signal) : Option Signal :=
  sigs.find? fun s => s.id = id

/-- storage.ts `updateMt5Heartbeat`. -/
def updateMt5HeartbeatS (now : Int) (st : Store) : Store :=
  { st with settings := { st.settings with lastMt5Heartbeat := some now } }

/-! ## MT5 WebSocket report handler (src/server/routes.ts, mt5Wss
`ws.on('message')`) -/

/-- An inbound message from the MT5 agent: either the heartbeat variant or an
execution report `{commandId, success, orderId?, positionId?, error?}`. -/
structure Mt5Msg where
  isHeartbeat : Bool
  commandId : Option String
  success : Bool
  orderId : Option String
  positionId : Option String
  error : Option String
deriving DecidableEq, Repr

/-- The default reason text the report handler writes on a failure report
with no broker-provided error. -/
def defaultFailReason : String := "Trade execution failed in MT5"

/-- routes.ts mt5Wss `ws.on('message')`: update the heartbeat; ignore
heartbeat messages and messages without a commandId; ignore reports for
unknown commands; otherwise record an ExecutionResult, mark the command
acknowledged (unconditionally — also on failure reports), and update the
originating signal: on success with an order id set it 'executed' and, for a
TRADE command, create an open trade record; otherwise set it 'failed' with
the broker reason.  `now` is the processing time, `newResultId`/`newTradeId`
the fresh UUIDs. -/
def handleMt5Report (st : Store) (msg : Mt5Msg) (now : Int)
    (newResultId newTradeId : String) : Store :=
  let st1 := updateMt5HeartbeatS now st
  if msg.isHeartbeat then st1
  else
    match msg.commandId with
    | none => st1
    | some cid =>
      match getCommandByIdL cid st1.mt5Commands with
      | none => st1
      | some command =>
        let newResult : ExecResult :=
          { id := newResultId, commandId := some cid,
            success := if msg.success then "true" else "false",
            orderId := msg.orderId, positionId := msg.positionId,
            errorMessage := msg.error, responseData := none, executedAt := now }
        let st2 := { st1 with
          mt5ExecutionResults := st1.mt5ExecutionResults ++ [newResult] }
        let st3 := { st2 with mt5Commands := markCommandAsAckL now cid st2.mt5Commands }
        match command.signalId with
        | none => st3
        | some sid =>
          match msg.success, msg.orderId with
          | true, some oid =>
            let st4 := { st3 with
              signals := updateSignalStatusL sid "executed" (some none) st3.signals }
            match getSignalByIdL sid st4.signals with
            | some signal =>
              if command.action = "TRADE" then
                let newTrade : Trade :=
                  { id := newTradeId, signalId := some sid, symbol := signal.symbol,
                    tradeType := signal.sigType,
                    openPrice := some (signal.price.getD "0"),
                    volume := command.volume.getD "0",
                    mt5OrderId := some oid,
                    mt5PositionId := some (msg.positionId.getD oid),
                    stopLoss := command.stopLoss, takeProfit := command.takeProfit,
                    status := "open", openTime := now }
                { st4 with trades := st4.trades ++ [newTrade] }
              else st4
            | none => st4
          | _, _ =>
            let failMsg : Option (Option String) :=
              some (some (msg.error.getD defaultFailReason))
            { st3 with signals := updateSignalStatusL sid "failed" failMsg st3.signals }

/-! ## Lookup-after-update lemmas -/

theorem find?_update_by_id (f : Mt5Command → Mt5Command)
    (hf : ∀ c, (f c).id = c.id) (cid : String) (cmds : List Mt5Command) :
    (cmds.map fun c => if c.id = cid then f c else c).find? (fun c => c.id = cid) =
      ((cmds.find? fun c => c.id = cid).map f) := by
  induction cmds with
  | nil => rfl
  | cons c cs ih =>
    by_cases h : c.id = cid
    · simp [List.find?_cons, h, hf]
    · simp [List.find?_cons, h, ih]

theorem getCommandByIdL_markAck (now : Int) (cid : String) (cmds : List Mt5Command) :
    getCommandByIdL cid (markCommandAsAckL now cid cmds) =
      (getCommandByIdL cid cmds).map
        (fun c => { c with status := .acknowledged, acknowledgedAt := some now }) := by
  unfold getCommandByIdL markCommandAsAckL
  exact find?_update_by_id
    (fun c => { c with status := .acknowledged, acknowledgedAt := some now })
    (fun c => rfl) cid cmds

theorem find?_update_sig_by_id (f : Signal → Signal)
    (hf : ∀ s, (f s).id = s.id) (sid : String) (sigs : List Signal) :
    (sigs.map fun s => if s.id = sid then f s else s).find? (fun s => s.id = sid) =
      ((sigs.find? fun s => s.id = sid).map f) := by
  induction sigs with
  | nil => rfl
  | cons s ss ih =>
    by_cases h : s.id = sid
    · simp [List.find?_cons, h, hf]
    · simp [List.find?_cons, h, ih]

theorem getSignalByIdL_update (sid status : String) (errArg : Option (Option String))
    (sigs : List Signal) :
    getSignalByIdL sid (updateSignalStatusL sid status errArg sigs) =
      (getSignalByIdL sid sigs).map
        (fun s => { s with status := status,
                           errorMessage := match errArg with
                             | some e => e
                             | none => s.errorMessage }) := by
  unfold getSignalByIdL updateSignalStatusL
  exact find?_update_sig_by_id
    (fun s => { s with status := status,
                       errorMessage := match errArg with
                         | some e => e
                         | none => s.errorMessage })
    (fun s => rfl) sid sigs

/-! ## C1: the command status state machine under store operations -/

/-- A command-queue store operation of `MemStorage` (the four mutators of a
command's status). -/
inductive StoreOp where
  | opSent (cid : String) (t : Int)
  | opAck (cid : String) (t : Int)
  | opFailed (cid : String) (msg : String)
  | opSweep (t : Int)
deriving DecidableEq, Repr

/-- Apply one store operation (dispatch to the storage.ts mutators). -/
def applyStoreOp (cmds : List Mt5Command) : StoreOp → List Mt5Command
  | .opSent cid t => markCommandAsSentL t cid cmds
  | .opAck cid t => markCommandAsAckL t cid cmds
  | .opFailed cid msg => markCommandAsFailedL msg cid cmds
  | .opSweep t => retryTimedOutL t cmds

/-- The status of command `cid` in the store, when present. -/
def statusOf (cid : String) (cmds : List Mt5Command) : Option CmdStatus :=
  (getCommandByIdL cid cmds).map Mt5Command.status

/-- The statuses of command `cid` observed before/after each operation of a
run. -/
def statusTrace (cid : String) (cmds : List Mt5Command) :
    List StoreOp → List (Option CmdStatus)
  | [] => [statusOf cid cmds]
  | op :: ops => statusOf cid cmds :: statusTrace cid (applyStoreOp cmds op) ops

/-- One observed step allowed by the claimed state machine: unchanged, or
pending→sent, pending→failed, sent→acknowledged, sent→failed. -/
def stepOk (a b : CmdStatus) : Bool :=
  a == b || (a == .pending && (b == .sent || b == .failed)) ||
    (a == .sent && (b == .acknowledged || b == .failed))

/-- The observed status sequence is a path of the claimed state machine. -/
def pathOk : List CmdStatus → Bool
  | [] => true
  | [_] => true
  | a :: b :: rest => stepOk a b && pathOk (b :: rest)

/-- The trace observes the command in both terminal statuses. -/
def bothTerminals (tr : List CmdStatus) : Bool :=
  tr.contains .acknowledged && tr.contains .failed

/-- The guard under which the server actually invokes each mutator:
`markCommandAsSent` on a pending command (webhook push / reconnection
replay), `markCommandAsAcknowledged` on a sent command,
`markCommandAsFailed` on a non-terminal command; the sweep carries its own
internal guard. -/
def opGuardB (cmds : List Mt5Command) : StoreOp → Bool
  | .opSent cid _ => statusOf cid cmds == some .pending
  | .opAck cid _ => statusOf cid cmds == some .sent
  | .opFailed cid _ =>
      statusOf cid cmds == some .pending || statusOf cid cmds == some .sent
  | .opSweep _ => true

/-- Every operation of the run is applied in a state satisfying its guard. -/
def guardedRun (cmds : List Mt5Command) : List StoreOp → Bool
  | [] => true
  | op :: ops => opGuardB cmds op && guardedRun (applyStoreOp cmds op) ops

theorem bandLeft {a b : Bool} (h : (a && b) = true) : a = true := by
  cases a <;> simp_all

theorem bandRight {a b : Bool} (h : (a && b) = true) : b = true := by
  cases a <;> simp_all

theorem borCases {a b : Bool} (h : (a || b) = true) : a = true ∨ b = true := by
  cases a <;> simp_all

theorem find?_map_id_pres (f : Mt5Command → Mt5Command)
    (hf : ∀ c, (f c).id = c.id) (cid : String) (cmds : List Mt5Command) :
    getCommandByIdL cid (cmds.map f) = (getCommandByIdL cid cmds).map f := by
  unfold getCommandByIdL
  induction cmds with
  | nil => rfl
  | cons c cs ih =>
    by_cases h : c.id = cid
    · simp [List.find?_cons, h, hf]
    · simp [List.find?_cons, h, hf, ih]

theorem statusOf_update_ne (f : Mt5Command → Mt5Command)
    (hf : ∀ c, (f c).id = c.id) (cid cid' : String) (hne : ¬ cid' = cid)
    (cmds : List Mt5Command) :
    statusOf cid (cmds.map fun c => if c.id = cid' then f c else c) =
      statusOf cid cmds := by
  unfold statusOf
  rw [find?_map_id_pres (fun c => if c.id = cid' then f c else c)
    (by intro c; by_cases h : c.id = cid' <;> simp [h, hf]) cid cmds]
  unfold getCommandByIdL
  cases hfind : cmds.find? (fun c => c.id = cid) with
  | none => rfl
  | some c0 =>
    have hid : c0.id = cid := by
      have := List.find?_some hfind
      simpa using this
    have : ¬ c0.id = cid' := by rw [hid]; intro h; exact hne h.symm
    simp [this]

/-- Effect of an update-by-id on the targeted command's observed status. -/
theorem statusOf_update_eq (f : Mt5Command → Mt5Command)
    (hf : ∀ c, (f c).id = c.id) (cid : String) (cmds : List Mt5Command)
    (c0 : Mt5Command) (hc0 : getCommandByIdL cid cmds = some c0) :
    statusOf cid (cmds.map fun c => if c.id = cid then f c else c) =
      some (f c0).status := by
  unfold statusOf
  rw [find?_map_id_pres (fun c => if c.id = cid then f c else c)
    (by intro c; by_cases hx : c.id = cid <;> simp [hx, hf]) cid cmds, hc0]
  have hid : c0.id = cid := by simpa using List.find?_some hc0
  simp [hid]

/-- Effect of one guarded operation on the observed status: it exists and the
step is one of the claimed transitions. -/
theorem statusOf_applyStoreOp (cid : String) (op : StoreOp)
    (cmds : List Mt5Command) (s : CmdStatus)
    (hs : statusOf cid cmds = some s) (hg : opGuardB cmds op = true) :
    ∃ s', statusOf cid (applyStoreOp cmds op) = some s' ∧ stepOk s s' = true := by
  obtain ⟨c0, hc0, hst⟩ : ∃ c0, getCommandByIdL cid cmds = some c0 ∧ c0.status = s := by
    unfold statusOf at hs
    cases hfind : getCommandByIdL cid cmds with
    | none => rw [hfind] at hs; exact absurd hs (by simp)
    | some c0 => rw [hfind] at hs; exact ⟨c0, rfl, by simpa using hs⟩
  cases op with
  | opSent cid' t =>
    by_cases h : cid' = cid
    · subst h
      have hpend : s = .pending := by
        simp only [opGuardB, hs] at hg
        simpa using hg.symm
      refine ⟨.sent, ?_, by rw [hpend]; rfl⟩
      exact statusOf_update_eq
        (fun c => { c with status := .sent, sentAt := some t })
        (fun c => rfl) cid' cmds c0 hc0
    · refine ⟨s, ?_, by simp [stepOk]⟩
      exact (statusOf_update_ne
        (fun c => { c with status := .sent, sentAt := some t })
        (fun c => rfl) cid cid' h cmds).trans hs
  | opAck cid' t =>
    by_cases h : cid' = cid
    · subst h
      have hsent : s = .sent := by
        simp only [opGuardB, hs] at hg
        simpa using hg.symm
      refine ⟨.acknowledged, ?_, by rw [hsent]; rfl⟩
      exact statusOf_update_eq
        (fun c => { c with status := .acknowledged, acknowledgedAt := some t })
        (fun c => rfl) cid' cmds c0 hc0
    · refine ⟨s, ?_, by simp [stepOk]⟩
      exact (statusOf_update_ne
        (fun c => { c with status := .acknowledged, acknowledgedAt := some t })
        (fun c => rfl) cid cid' h cmds).trans hs
  | opFailed cid' msg =>
    by_cases h : cid' = cid
    · subst h
      have hnt : s = .pending ∨ s = .sent := by
        simp only [opGuardB, hs] at hg
        rcases borCases hg with h1 | h1
        · exact Or.inl (by simpa using h1)
        · exact Or.inr (by simpa using h1)
      refine ⟨.failed, ?_, by rcases hnt with h1 | h1 <;> rw [h1] <;> rfl⟩
      exact statusOf_update_eq
        (fun c => { c with status := .failed, errorMessage := some msg })
        (fun c => rfl) cid' cmds c0 hc0
    · refine ⟨s, ?_, by simp [stepOk]⟩
      exact (statusOf_update_ne
        (fun c => { c with status := .failed, errorMessage := some msg })
        (fun c => rfl) cid cid' h cmds).trans hs
  | opSweep t =>
    have heq : statusOf cid (applyStoreOp cmds (.opSweep t)) =
        some ((sweepOne t c0).status) := by
      show statusOf cid (retryTimedOutL t cmds) = some (sweepOne t c0).status
      unfold statusOf
      rw [retryTimedOutL_eq_map,
        find?_map_id_pres (sweepOne t)
          (by intro c; unfold sweepOne; by_cases hx : timedOut t c <;> simp [hx])
          cid cmds,
        hc0]
      rfl
    by_cases h : timedOut t c0
    · have hsent : c0.status = .sent := by
        by_contra hx
        unfold timedOut at h
        simp [hx] at h
      refine ⟨.failed, ?_, by rw [← hst, hsent]; rfl⟩
      rw [heq]
      unfold sweepOne
      simp [h]
    · refine ⟨s, ?_, by simp [stepOk]⟩
      rw [heq]
      unfold sweepOne
      simp [h, hst]

theorem pathOk_cons (a : CmdStatus) (tr : List CmdStatus)
    (h : pathOk (a :: tr) = true) : pathOk tr = true := by
  cases tr with
  | nil => rfl
  | cons b rest =>
    have h' : (stepOk a b && pathOk (b :: rest)) = true := h
    exact bandRight h'

theorem pathOk_after_ack : ∀ tr, pathOk (CmdStatus.acknowledged :: tr) = true →
    ∀ x ∈ tr, x = CmdStatus.acknowledged := by
  intro tr
  induction tr with
  | nil => intro _ x hx; cases hx
  | cons b rest ih =>
    intro h x hx
    have h' : (stepOk .acknowledged b && pathOk (b :: rest)) = true := h
    have hb : b = .acknowledged := by
      cases b <;> first | rfl | exact absurd (bandLeft h') (by decide)
    subst hb
    rcases List.mem_cons.mp hx with hx | hx
    · exact hx
    · exact ih (bandRight h') x hx

theorem pathOk_after_failed : ∀ tr, pathOk (CmdStatus.failed :: tr) = true →
    ∀ x ∈ tr, x = CmdStatus.failed := by
  intro tr
  induction tr with
  | nil => intro _ x hx; cases hx
  | cons b rest ih =>
    intro h x hx
    have h' : (stepOk .failed b && pathOk (b :: rest)) = true := h
    have hb : b = .failed := by
      cases b <;> first | rfl | exact absurd (bandLeft h') (by decide)
    subst hb
    rcases List.mem_cons.mp hx with hx | hx
    · exact hx
    · exact ih (bandRight h') x hx

theorem pathOk_no_both : ∀ tr, pathOk tr = true →
    ¬ (CmdStatus.acknowledged ∈ tr ∧ CmdStatus.failed ∈ tr) := by
  intro tr
  induction tr with
  | nil => intro _ hc; exact absurd hc.1 (by simp)
  | cons a rest ih =>
    intro h hc
    obtain ⟨hack, hfail⟩ := hc
    cases a with
    | acknowledged =>
      have hmem : CmdStatus.failed ∈ rest := by
        rcases List.mem_cons.mp hfail with h1 | h1
        · exact absurd h1 (by decide)
        · exact h1
      exact absurd (pathOk_after_ack rest h _ hmem) (by decide)
    | failed =>
      have hmem : CmdStatus.acknowledged ∈ rest := by
        rcases List.mem_cons.mp hack with h1 | h1
        · exact absurd h1 (by decide)
        · exact h1
      exact absurd (pathOk_after_failed rest h _ hmem) (by decide)
    | pending =>
      refine ih (pathOk_cons _ _ h) ⟨?_, ?_⟩
      · rcases List.mem_cons.mp hack with h1 | h1
        · exact absurd h1 (by decide)
        · exact h1
      · rcases List.mem_cons.mp hfail with h1 | h1
        · exact absurd h1 (by decide)
        · exact h1
    | sent =>
      refine ih (pathOk_cons _ _ h) ⟨?_, ?_⟩
      · rcases List.mem_cons.mp hack with h1 | h1
        · exact absurd h1 (by decide)
        · exact h1
      · rcases List.mem_cons.mp hfail with h1 | h1
        · exact absurd h1 (by decide)
        · exact h1

theorem pathOk_not_bothTerminals (tr : List CmdStatus) (h : pathOk tr = true) :
    bothTerminals tr = false := by
  have hno := pathOk_no_both tr h
  unfold bothTerminals
  by_cases hA : CmdStatus.acknowledged ∈ tr
  · have hB : CmdStatus.failed ∉ tr := fun hB => hno ⟨hA, hB⟩
    simp [hB]
  · simp [hA]

theorem statusTrace_head (cid : String) (cmds : List Mt5Command)
    (ops : List StoreOp) :
    ∃ rest, statusTrace cid cmds ops = statusOf cid cmds :: rest := by
  cases ops <;> exact ⟨_, rfl⟩

theorem guarded_pathOk (cid : String) : ∀ (ops : List StoreOp)
    (cmds : List Mt5Command) (s : CmdStatus),
    statusOf cid cmds = some s → guardedRun cmds ops = true →
    pathOk ((statusTrace cid cmds ops).reduceOption) = true := by
  intro ops
  induction ops with
  | nil =>
    intro cmds s hs _
    simp [statusTrace, hs, List.reduceOption, pathOk]
  | cons op rest ih =>
    intro cmds s hs hg
    have hg' : (opGuardB cmds op && guardedRun (applyStoreOp cmds op) rest) = true := hg
    obtain ⟨s', hs', hstep⟩ := statusOf_applyStoreOp cid op cmds s hs (bandLeft hg')
    have htail := ih (applyStoreOp cmds op) s' hs' (bandRight hg')
    obtain ⟨tr2, htr2⟩ := statusTrace_head cid (applyStoreOp cmds op) rest
    have hshape : statusTrace cid cmds (op :: rest) =
        some s :: some s' :: tr2 := by
      show statusOf cid cmds :: statusTrace cid (applyStoreOp cmds op) rest =
        some s :: some s' :: tr2
      rw [hs, htr2, hs']
    rw [hshape]
    rw [htr2, hs'] at htail
    simp only [List.reduceOption_cons_of_some] at htail ⊢
    show (stepOk s s' && pathOk (s' :: tr2.reduceOption)) = true
    rw [hstep, htail]
    rfl

/-- C1 amendment, main theorem: the storage mutators are UNGUARDED (each sets
its target status on any existing command, whatever its current status), so
the claimed path property holds exactly for runs in which every operation is
applied under the guard the server respects in the nominal flow
(`markSent` on pending, `markAcknowledged` on sent, `markFailed` on
non-terminal): for every such guarded run starting from a pending command,
the observed status sequence is a path through
pending→sent→(acknowledged|failed) or pending→failed, and the command is
never observed in both terminal statuses. -/
theorem C1_guarded_state_machine (cid : String) (cmds : List Mt5Command)
    (ops : List StoreOp)
    (hstart : statusOf cid cmds = some .pending)
    (hg : guardedRun cmds ops = true) :
    pathOk ((statusTrace cid cmds ops).reduceOption) = true ∧
    bothTerminals ((statusTrace cid cmds ops).reduceOption) = false := by
  have hpath := guarded_pathOk cid ops cmds .pending hstart hg
  exact ⟨hpath, pathOk_not_bothTerminals _ hpath⟩

/-! ## Concrete fixtures shared by several developments -/

/-- Default settings record with a fresh heartbeat. -/
def sampleSettings : ServerSettings :=
  { mt5ApiSecret := none, accountBalance := "10000", autoTrade := "true",
    lastMt5Heartbeat := some 0 }

/-- A BUY EURUSD signal record. -/
def sampleSignal (sid status : String) (t : Int) : Signal :=
  { id := sid, sigType := "BUY", symbol := "EURUSD", price := some "1.1000",
    source := "tradingview", status := status, errorMessage := none,
    indicatorType := none, entryPrice := none, stopLoss := some "1.0850",
    takeProfit := some "1.0880", timestamp := t }

/-- A TRADE command record for signal `sid` in the given status. -/
def sampleCommand (cid sid : String) (status : CmdStatus)
    (createdAt : Int) (sentAt ackAt : Option Int) : Mt5Command :=
  { id := cid, action := "TRADE", symbol := some "EURUSD", cmdType := some "BUY",
    volume := some "0.01", stopLoss := some "1.0850", takeProfit := some "1.0880",
    positionId := none, signalId := some sid, status := status,
    createdAt := createdAt, sentAt := sentAt, acknowledgedAt := ackAt,
    errorMessage := none }

/-- C1 counterexample: a program-reachable run — enqueue leaves the command
pending; it is marked sent at t=10; the timeout sweep at t=70011 fails it
(70001 ms elapsed); a late execution report then marks it ACKNOWLEDGED.  The
observed status sequence pending, sent, failed, acknowledged is not a path of
the claimed machine and observes both terminal statuses, refuting the claim
at this concrete input. -/
theorem C1_counterexample :
    (statusTrace "c1" [sampleCommand "c1" "s1" .pending 0 none none]
        [.opSent "c1" 10, .opSweep 70011, .opAck "c1" 80000]).reduceOption =
      [.pending, .sent, .failed, .acknowledged] ∧
    pathOk ((statusTrace "c1" [sampleCommand "c1" "s1" .pending 0 none none]
        [.opSent "c1" 10, .opSweep 70011, .opAck "c1" 80000]).reduceOption) = false ∧
    bothTerminals ((statusTrace "c1" [sampleCommand "c1" "s1" .pending 0 none none]
        [.opSent "c1" 10, .opSweep 70011, .opAck "c1" 80000]).reduceOption) = true := by
  refine ⟨by decide, by decide, by decide⟩

/-- C1 witness: the guarded-run theorem applied to the concrete run
pending → sent → acknowledged. -/
theorem C1_guarded_state_machine_witness :
    (statusOf "c1" [sampleCommand "c1" "s1" .pending 0 none none] =
        some .pending ∧
      guardedRun [sampleCommand "c1" "s1" .pending 0 none none]
        [.opSent "c1" 10, .opAck "c1" 20] = true) ∧
    pathOk ((statusTrace "c1" [sampleCommand "c1" "s1" .pending 0 none none]
        [.opSent "c1" 10, .opAck "c1" 20]).reduceOption) = true ∧
    bothTerminals ((statusTrace "c1" [sampleCommand "c1" "s1" .pending 0 none none]
        [.opSent "c1" 10, .opAck "c1" 20]).reduceOption) = false := by
  refine ⟨⟨by decide, by decide⟩, ?_⟩
  exact C1_guarded_state_machine "c1" [sampleCommand "c1" "s1" .pending 0 none none]
    [.opSent "c1" 10, .opAck "c1" 20] (by decide) (by decide)

/-! ## C3: handling of an explicit failure report -/

/-- C3 counterexample input: one 'sent' command for a pending signal, and a
failure report (`success=false`) carrying a broker reason for it. -/
def c3Store : Store :=
  { signals := [sampleSignal "s1" "pending" 0], trades := [],
    mt5Commands := [sampleCommand "c1" "s1" .sent 0 (some 10) none],
    mt5ExecutionResults := [], settings := sampleSettings }

/-- C3 failure report fixture. -/
def c3Msg : Mt5Msg :=
  { isHeartbeat := false, commandId := some "c1", success := false,
    orderId := none, positionId := none, error := some "Broker rejected order" }

/-- C3 counterexample: on an explicit failure report for an existing
non-terminal command, the report handler sets the command's status to
'acknowledged', not 'failed' — `markCommandAsFailed` is not the transition
invoked, refuting the claim at this concrete input. -/
theorem C3_counterexample :
    ((getCommandByIdL "c1"
        (handleMt5Report c3Store c3Msg 5000 "r1" "t1").mt5Commands).map
      Mt5Command.status = some .acknowledged) ∧
    ¬ ((getCommandByIdL "c1"
        (handleMt5Report c3Store c3Msg 5000 "r1" "t1").mt5Commands).map
      Mt5Command.status = some .failed) := by
  constructor
  · rfl
  · decide

/-- C3 amended: on a report with `success=false` for an existing non-terminal
command, the handler records an ExecutionResult carrying the broker reason,
marks the command ACKNOWLEDGED (not failed; `markCommandAsFailed` is never
invoked on the report path, and the command's own error text is untouched),
and marks the originating signal 'failed' with the broker-provided reason
(defaulted when absent). -/
theorem C3_failure_report (st : Store) (msg : Mt5Msg) (now : Int)
    (rid tid cid sid : String) (cmd : Mt5Command)
    (hhb : msg.isHeartbeat = false)
    (hcid : msg.commandId = some cid)
    (hfind : getCommandByIdL cid st.mt5Commands = some cmd)
    (hfail : msg.success = false)
    (hsid : cmd.signalId = some sid) :
    getCommandByIdL cid (handleMt5Report st msg now rid tid).mt5Commands =
        some { cmd with status := .acknowledged, acknowledgedAt := some now } ∧
    (handleMt5Report st msg now rid tid).mt5Commands =
        markCommandAsAckL now cid st.mt5Commands ∧
    (handleMt5Report st msg now rid tid).mt5ExecutionResults =
        st.mt5ExecutionResults ++
          [{ id := rid, commandId := some cid, success := "false",
             orderId := msg.orderId, positionId := msg.positionId,
             errorMessage := msg.error, responseData := none, executedAt := now }] ∧
    (handleMt5Report st msg now rid tid).signals =
        updateSignalStatusL sid "failed"
          (some (some (msg.error.getD defaultFailReason))) st.signals := by
  obtain ⟨hb, mcid, succ, oid, pid, err⟩ := msg
  dsimp only at hhb hcid hfail
  subst hhb hfail
  have hmc : mcid = some cid := hcid
  subst hmc
  simp only [handleMt5Report, updateMt5HeartbeatS, Bool.false_eq_true, if_false]
  have hfind' : getCommandByIdL cid st.mt5Commands = some cmd := hfind
  simp only [hfind', hsid]
  refine ⟨?_, trivial, trivial, trivial⟩
  rw [getCommandByIdL_markAck, hfind']
  simp [hsid]

/-- C3 witness: the amended failure-report theorem applied at the concrete
failure-report fixture. -/
theorem C3_failure_report_witness :
    getCommandByIdL "c1" (handleMt5Report c3Store c3Msg 5000 "r1" "t1").mt5Commands =
      some { sampleCommand "c1" "s1" .sent 0 (some 10) none with
             status := .acknowledged, acknowledgedAt := some 5000 } ∧
    (handleMt5Report c3Store c3Msg 5000 "r1" "t1").signals =
      updateSignalStatusL "s1" "failed"
        (some (some "Broker rejected order")) c3Store.signals := by
  have h := C3_failure_report c3Store c3Msg 5000 "r1" "t1" "c1" "s1"
    (sampleCommand "c1" "s1" .sent 0 (some 10) none) rfl rfl rfl rfl rfl
  exact ⟨h.1, h.2.2.2⟩

/-! ## C2: replaying a report for an already-acknowledged command -/

/-- C2 counterexample input: the state after a first successful TRADE report —
command acknowledged at time 1000, signal executed, one open trade. -/
def c2Store : Store :=
  { signals := [sampleSignal "s1" "executed" 0],
    trades := [{ id := "t0", signalId := some "s1", symbol := "EURUSD",
                 tradeType := "BUY", openPrice := some "1.1000", volume := "0.01",
                 mt5OrderId := some "777", mt5PositionId := some "777",
                 stopLoss := some "1.0850", takeProfit := some "1.0880",
                 status := "open", openTime := 1000 }],
    mt5Commands := [sampleCommand "c1" "s1" .acknowledged 0 (some 10) (some 1000)],
    mt5ExecutionResults :=
      [{ id := "r0", commandId := some "c1", success := "true",
         orderId := some "777", positionId := some "777", errorMessage := none,
         responseData := none, executedAt := 1000 }],
    settings := sampleSettings }

/-- C2 duplicate success report fixture. -/
def c2Msg : Mt5Msg :=
  { isHeartbeat := false, commandId := some "c1", success := true,
    orderId := some "777", positionId := some "777", error := none }

/-- C2 counterexample: replaying the success report for the already
acknowledged command overwrites the acknowledged-timestamp (1000 becomes the
new processing time 2000) and creates a second open trade record for the same
command, refuting idempotence at this concrete input. -/
theorem C2_counterexample :
    ((getCommandByIdL "c1"
        (handleMt5Report c2Store c2Msg 2000 "r1" "t1").mt5Commands).map
      Mt5Command.acknowledgedAt = some (some 2000)) ∧
    ¬ ((getCommandByIdL "c1"
        (handleMt5Report c2Store c2Msg 2000 "r1" "t1").mt5Commands).map
      Mt5Command.acknowledgedAt = some (some 1000)) ∧
    (handleMt5Report c2Store c2Msg 2000 "r1" "t1").trades.length = 2 := by
  refine ⟨rfl, by decide, rfl⟩

/-- C2 amended: the report handler has no terminal-state guard — replaying a
success report for an already-acknowledged TRADE command re-records an
ExecutionResult, OVERWRITES the command's acknowledged-timestamp with the new
processing time, and creates an additional open Position (trade record) for
the same command. -/
theorem C2_replay_not_idempotent (st : Store) (msg : Mt5Msg) (now t0 : Int)
    (rid tid cid sid oid : String) (cmd : Mt5Command) (sig : Signal)
    (hhb : msg.isHeartbeat = false)
    (hcid : msg.commandId = some cid)
    (hfind : getCommandByIdL cid st.mt5Commands = some cmd)
    (hstatus : cmd.status = .acknowledged)
    (hack : cmd.acknowledgedAt = some t0)
    (hsucc : msg.success = true)
    (hoid : msg.orderId = some oid)
    (hsid : cmd.signalId = some sid)
    (haction : cmd.action = "TRADE")
    (hsig : getSignalByIdL sid st.signals = some sig) :
    getCommandByIdL cid (handleMt5Report st msg now rid tid).mt5Commands =
        some { cmd with status := .acknowledged, acknowledgedAt := some now } ∧
    (handleMt5Report st msg now rid tid).mt5ExecutionResults.length =
        st.mt5ExecutionResults.length + 1 ∧
    (handleMt5Report st msg now rid tid).trades.length = st.trades.length + 1 := by
  obtain ⟨hb, mcid, succ, moid, pid, err⟩ := msg
  dsimp only at hhb hcid hsucc hoid
  subst hhb hsucc
  have hmc : mcid = some cid := hcid
  subst hmc
  have hmo : moid = some oid := hoid
  subst hmo
  simp only [handleMt5Report, updateMt5HeartbeatS, Bool.false_eq_true, if_false]
  have hfind' : getCommandByIdL cid st.mt5Commands = some cmd := hfind
  simp only [hfind', hsid]
  have hsig2 : getSignalByIdL sid (updateSignalStatusL sid "executed" (some none)
      st.signals) = some { sig with status := "executed", errorMessage := none } := by
    rw [getSignalByIdL_update, hsig]
    rfl
  simp only [hsig2]
  rw [if_pos haction]
  refine ⟨?_, by simp, by simp⟩
  rw [getCommandByIdL_markAck, hfind']
  simp [hsid]

/-- C2 witness: the amended replay theorem applied at the concrete
duplicate-report fixture. -/
theorem C2_replay_not_idempotent_witness :
    getCommandByIdL "c1" (handleMt5Report c2Store c2Msg 2000 "r1" "t1").mt5Commands =
      some { sampleCommand "c1" "s1" .acknowledged 0 (some 10) (some 1000) with
             status := .acknowledged, acknowledgedAt := some 2000 } ∧
    (handleMt5Report c2Store c2Msg 2000 "r1" "t1").trades.length =
      c2Store.trades.length + 1 := by
  have h := C2_replay_not_idempotent c2Store c2Msg 2000 1000 "r1" "t1" "c1" "s1" "777"
    (sampleCommand "c1" "s1" .acknowledged 0 (some 10) (some 1000))
    (sampleSignal "s1" "executed" 0) rfl rfl rfl rfl rfl rfl rfl rfl rfl rfl
  exact ⟨h.1, h.2.2⟩

/-! ## C4: the duplicate-command guard -/

/-- Number of non-terminal (pending or sent) commands referencing signal
`sid`. -/
def nonTermCount (sid : String) (cmds : List Mt5Command) : Nat :=
  cmds.countP fun c =>
    c.signalId = some sid && (c.status = .pending || c.status = .sent)

/-- routes.ts webhook lines 392-438: the duplicate-command guard and the
enqueue-and-push step.  If `getPendingCommands` already holds a command
referencing the signal, the handler short-circuits without creating a
command (returning a JSON message, not the existing command); otherwise it
enqueues a fresh pending TRADE command and, when a channel client is open,
marks it sent.  The Bool records whether a command was created. -/
def webhookCommandPhase (sigId symbol sigType : String)
    (slValue tpValue : Option String) (now : Int) (newCmdId : String)
    (channelOpen : Bool) (cmds : List Mt5Command) : List Mt5Command × Bool :=
  if (getPendingCommandsL cmds).any (fun c => c.signalId = some sigId) then
    (cmds, false)
  else
    let cmds1 := enqueueCommandL newCmdId now "TRADE" (some symbol) (some sigType)
      (some "0.01") slValue tpValue none (some sigId) cmds
    if channelOpen then (markCommandAsSentL now newCmdId cmds1, true)
    else (cmds1, true)

/-- C4 counterexample: storage-level `enqueueCommand` has no duplicate check —
two enqueues for the same signal id yield TWO non-terminal commands
referencing it, refuting "the enqueue operation rejects creation and returns
the existing command, so at most one non-terminal command per signal exists
after any sequence of enqueue attempts" at this concrete input. -/
theorem C4_counterexample :
    nonTermCount "s1"
      (enqueueCommandL "c2" 1 "TRADE" (some "EURUSD") (some "BUY") (some "0.01")
        none none none (some "s1")
        (enqueueCommandL "c1" 0 "TRADE" (some "EURUSD") (some "BUY") (some "0.01")
          none none none (some "s1") [])) = 2 := by decide

theorem markSentL_append_fresh (t : Int) (cid : String) (cmds : List Mt5Command)
    (newCmd : Mt5Command) (hfresh : ∀ c ∈ cmds, ¬ c.id = cid)
    (hid : newCmd.id = cid) :
    markCommandAsSentL t cid (cmds ++ [newCmd]) =
      cmds ++ [{ newCmd with status := .sent, sentAt := some t }] := by
  unfold markCommandAsSentL
  rw [List.map_append]
  congr 1
  · conv_rhs => rw [← List.map_id cmds]
    apply List.map_congr_left
    intro c hc
    simp [hfresh c hc]
  · simp [hid]

/-- C4 amended: the duplicate guard lives in the webhook handler, not in
`enqueueCommand`: when a non-terminal command already references the signal,
the handler short-circuits without creating a command (though it does not
return the existing command's data, only a message); the guarded phase
preserves "at most one non-terminal command per signal" for every signal
id, provided the fresh UUID does not collide. -/
theorem C4_webhook_guard (sigId symbol sigType : String)
    (slV tpV : Option String) (now : Int) (newCmdId : String) (ch : Bool)
    (cmds : List Mt5Command)
    (hfresh : ∀ c ∈ cmds, ¬ c.id = newCmdId) :
    (((getPendingCommandsL cmds).any fun c => c.signalId = some sigId) = true →
      webhookCommandPhase sigId symbol sigType slV tpV now newCmdId ch cmds =
        (cmds, false)) ∧
    (∀ sid, nonTermCount sid cmds ≤ 1 →
      nonTermCount sid
        (webhookCommandPhase sigId symbol sigType slV tpV now newCmdId ch
          cmds).1 ≤ 1) := by
  constructor
  · intro h
    unfold webhookCommandPhase
    simp [h]
  · intro sid hle
    unfold webhookCommandPhase
    by_cases hguard :
        ((getPendingCommandsL cmds).any fun c => c.signalId = some sigId) = true
    · simpa [hguard] using hle
    · have hz : nonTermCount sigId cmds = 0 := by
        unfold nonTermCount
        rw [List.countP_eq_zero]
        intro c hc hpred
        apply hguard
        rw [List.any_eq_true]
        refine ⟨c, ?_, ?_⟩
        · unfold getPendingCommandsL
          rw [List.mem_filter]
          exact ⟨hc, bandRight hpred⟩
        · exact bandLeft hpred
      have hcount : ∀ x : Mt5Command, x.signalId = some sigId →
          (x.status = .pending ∨ x.status = .sent) →
          nonTermCount sid (cmds ++ [x]) ≤ 1 := by
        intro x hxsig hxst
        unfold nonTermCount
        rw [List.countP_append]
        by_cases hsid : sid = sigId
        · subst hsid
          have h0 : List.countP (fun c =>
              c.signalId = some sid && (c.status = .pending || c.status = .sent))
              cmds = 0 := hz
          rw [h0]
          rcases hxst with h1 | h1 <;> simp [List.countP_cons, hxsig, h1]
        · have hx : (decide (x.signalId = some sid) &&
              (decide (x.status = .pending) || decide (x.status = .sent))) = false := by
            have : ¬ x.signalId = some sid := by
              rw [hxsig]
              intro hcontra
              exact hsid (by injection hcontra with h; exact h.symm)
            simp [this]
          rw [List.countP_cons, List.countP_nil]
          simp only [hx]
          simpa using hle
      simp only [hguard, if_false, Bool.false_eq_true]
      cases ch with
      | true =>
        simp only [if_true]
        unfold enqueueCommandL
        rw [markSentL_append_fresh now newCmdId cmds _ hfresh rfl]
        exact hcount _ rfl (Or.inr rfl)
      | false =>
        simp only [if_false, Bool.false_eq_true]
        unfold enqueueCommandL
        exact hcount _ rfl (Or.inl rfl)

/-- C4 witness: the guard theorem applied at a concrete store holding one
pending command for signal s1: a second webhook attempt for s1 is a no-op,
and the at-most-one invariant is preserved. -/
theorem C4_webhook_guard_witness :
    webhookCommandPhase "s1" "EURUSD" "BUY" none none 5 "c2" true
        [sampleCommand "c1" "s1" .pending 0 none none] =
      ([sampleCommand "c1" "s1" .pending 0 none none], false) ∧
    nonTermCount "s1"
      (webhookCommandPhase "s1" "EURUSD" "BUY" none none 5 "c2" true
        [sampleCommand "c1" "s1" .pending 0 none none]).1 ≤ 1 := by
  have h := C4_webhook_guard "s1" "EURUSD" "BUY" none none 5 "c2" true
    [sampleCommand "c1" "s1" .pending 0 none none] (by decide)
  exact ⟨h.1 (by decide), h.2 "s1" (by decide)⟩

/-! ## C5: reconnection replay -/

/-- routes.ts mt5Wss connection handler, replay selection (lines 636-639):
`getPendingCommands()` (pending and sent) filtered down to status 'pending'
only. -/
def commandsToResend (cmds : List Mt5Command) : List Mt5Command :=
  (getPendingCommandsL cmds).filter fun c => c.status = .pending

/-- The image of a replayed command after `markCommandAsSent`. -/
def sentify (now : Int) (c : Mt5Command) : Mt5Command :=
  { c with status := .sent, sentAt := some now }

/-- One iteration of the replay loop (routes.ts lines 643-662): send the
command, mark it sent, and tag the originating signal. -/
def connectReplayStep (now : Int) (st : Store) (c : Mt5Command) : Store :=
  let st1 := { st with mt5Commands := markCommandAsSentL now c.id st.mt5Commands }
  match c.signalId with
  | some sid =>
      let reasonArg : Option (Option String) :=
        some (some "Executing after MT5 reconnection")
      { st1 with signals := updateSignalStatusL sid "pending" reasonArg st1.signals }
  | none => st1

/-- The replay pass of the connection handler: iterate the loop over the
selection computed up front. -/
def connectReplayStore (now : Int) (st : Store) : Store :=
  (commandsToResend st.mt5Commands).foldl (connectReplayStep now) st

theorem connectReplayStep_mt5Commands (now : Int) (st : Store) (c : Mt5Command) :
    (connectReplayStep now st c).mt5Commands =
      markCommandAsSentL now c.id st.mt5Commands := by
  unfold connectReplayStep
  cases c.signalId <;> rfl

theorem foldl_replay_mt5Commands (now : Int) : ∀ (todo : List Mt5Command)
    (st : Store),
    (todo.foldl (connectReplayStep now) st).mt5Commands =
      todo.foldl (fun acc c => markCommandAsSentL now c.id acc) st.mt5Commands := by
  intro todo
  induction todo with
  | nil => intro st; rfl
  | cons t ts ih =>
    intro st
    show ((ts.foldl (connectReplayStep now) (connectReplayStep now st t))).mt5Commands = _
    rw [ih (connectReplayStep now st t), connectReplayStep_mt5Commands]
    rfl

theorem foldl_markSent_eq (now : Int) : ∀ (todo : List Mt5Command)
    (cmds : List Mt5Command),
    todo.foldl (fun acc c => markCommandAsSentL now c.id acc) cmds =
      cmds.map fun c =>
        if (todo.map Mt5Command.id).contains c.id then sentify now c else c := by
  intro todo
  induction todo with
  | nil =>
    intro cmds
    simp
  | cons t ts ih =>
    intro cmds
    show ts.foldl (fun acc c => markCommandAsSentL now c.id acc)
        (markCommandAsSentL now t.id cmds) = _
    rw [ih (markCommandAsSentL now t.id cmds)]
    unfold markCommandAsSentL
    rw [List.map_map]
    apply List.map_congr_left
    intro c _
    by_cases h1 : c.id = t.id
    · by_cases h2 : (ts.map Mt5Command.id).contains c.id = true
      · simp [Function.comp, h1, h2, sentify]
      · simp only [Bool.not_eq_true] at h2
        simp [Function.comp, h1, h2, sentify]
    · by_cases h2 : (ts.map Mt5Command.id).contains c.id = true
      · simp [Function.comp, h1, h2, sentify]
      · simp only [Bool.not_eq_true] at h2
        simp [Function.comp, h1, h2, sentify]

theorem commandsToResend_eq_filter (cmds : List Mt5Command) :
    commandsToResend cmds = cmds.filter fun c => c.status = .pending := by
  unfold commandsToResend getPendingCommandsL
  rw [List.filter_filter]
  apply List.filter_congr
  intro c _
  cases hc : c.status <;> simp [hc]

/-- C5: on a new channel connection the replay pass selects exactly the
commands in status 'pending' at connect time (no 'sent' command is resent),
in ascending creation-time order (given the store is in creation order, as
`Map` insertion order guarantees), and the loop then marks exactly those
commands 'sent'. -/
theorem C5_connection_replay (st : Store) (now : Int)
    (hsort : List.Pairwise (· ≤ ·) (st.mt5Commands.map Mt5Command.createdAt))
    (hnd : (st.mt5Commands.map Mt5Command.id).Nodup) :
    commandsToResend st.mt5Commands =
        st.mt5Commands.filter (fun c => c.status = .pending) ∧
    List.Pairwise (· ≤ ·)
        ((commandsToResend st.mt5Commands).map Mt5Command.createdAt) ∧
    (∀ c ∈ commandsToResend st.mt5Commands,
        c.status = .pending ∧ ¬ c.status = .sent) ∧
    (connectReplayStore now st).mt5Commands =
        st.mt5Commands.map fun c =>
          if c.status = .pending then sentify now c else c := by
  refine ⟨commandsToResend_eq_filter st.mt5Commands, ?_, ?_, ?_⟩
  · rw [commandsToResend_eq_filter]
    exact hsort.sublist ((List.filter_sublist _).map Mt5Command.createdAt)
  · intro c hc
    rw [commandsToResend_eq_filter] at hc
    have := List.of_mem_filter hc
    have hp : c.status = .pending := by simpa using this
    exact ⟨hp, by rw [hp]; decide⟩
  · unfold connectReplayStore
    rw [foldl_replay_mt5Commands, foldl_markSent_eq]
    apply List.map_congr_left
    intro c hc
    have hiff : ((commandsToResend st.mt5Commands).map Mt5Command.id).contains c.id =
        decide (c.status = .pending) := by
      rcases hs : decide (c.status = .pending) with _ | _
      · have hnp : ¬ c.status = .pending := of_decide_eq_false hs
        rcases hmem : ((commandsToResend st.mt5Commands).map Mt5Command.id).contains c.id
          with _ | _
        · rfl
        · exfalso
          have : c.id ∈ (commandsToResend st.mt5Commands).map Mt5Command.id := by
            simpa using hmem
          obtain ⟨c', hc', hcid⟩ := List.mem_map.mp this
          rw [commandsToResend_eq_filter] at hc'
          have hc'mem : c' ∈ st.mt5Commands := List.mem_of_mem_filter hc'
          have hc'p : c'.status = .pending := by
            simpa using List.of_mem_filter hc'
          have : c' = c :=
            List.inj_on_of_nodup_map hnd hc'mem hc hcid
          exact hnp (this ▸ hc'p)
      · have hp : c.status = .pending := of_decide_eq_true hs
        have : c.id ∈ (commandsToResend st.mt5Commands).map Mt5Command.id := by
          apply List.mem_map_of_mem
          rw [commandsToResend_eq_filter]
          exact List.mem_filter.mpr ⟨hc, by simp [hp]⟩
        simpa using this
    rw [hiff]
    rcases hs : c.status <;> simp [hs]

/-- C5 witness: the replay theorem applied at a concrete store holding a
pending, a sent and a failed command in creation order. -/
theorem C5_connection_replay_witness :
    commandsToResend [sampleCommand "c1" "s1" .pending 0 none none,
        sampleCommand "c2" "s2" .sent 1 (some 5) none,
        sampleCommand "c3" "s3" .failed 2 none none] =
      [sampleCommand "c1" "s1" .pending 0 none none] ∧
    (connectReplayStore 9
        { signals := [], trades := [],
          mt5Commands := [sampleCommand "c1" "s1" .pending 0 none none,
            sampleCommand "c2" "s2" .sent 1 (some 5) none,
            sampleCommand "c3" "s3" .failed 2 none none],
          mt5ExecutionResults := [], settings := sampleSettings }).mt5Commands =
      [sentify 9 (sampleCommand "c1" "s1" .pending 0 none none),
        sampleCommand "c2" "s2" .sent 1 (some 5) none,
        sampleCommand "c3" "s3" .failed 2 none none] := by
  have h := C5_connection_replay
    { signals := [], trades := [],
      mt5Commands := [sampleCommand "c1" "s1" .pending 0 none none,
        sampleCommand "c2" "s2" .sent 1 (some 5) none,
        sampleCommand "c3" "s3" .failed 2 none none],
      mt5ExecutionResults := [], settings := sampleSettings } 9
    (by decide) (by decide)
  refine ⟨?_, ?_⟩
  · have h1 := h.1
    simpa using h1
  · have h4 := h.2.2.2
    simpa using h4

/-! ## The TradingView webhook pipeline (routes.ts /api/webhook) -/

/-- routes.ts `isValidSymbol` character class `[A-Za-z0-9._-]`. -/
def validSymbolChar (ch : Char) : Bool :=
  ch.isAlpha || ch.isDigit || ch == '.' || ch == '_' || ch == '-'

/-- routes.ts `isValidSymbol`: 3-30 characters from the class above. -/
def isValidSymbol (s : String) : Bool :=
  decide (3 ≤ s.length) && decide (s.length ≤ 30) && s.toList.all validSymbolChar

/-- Stable insertion into a list kept in descending-timestamp order (newer
first; an equal-timestamp signal stays before later ones, matching the
stable `Array.prototype.sort` with comparator `b.timestamp - a.timestamp`). -/
def insertDescByTime (s : Signal) : List Signal → List Signal
  | [] => [s]
  | t :: ts =>
      if t.timestamp ≤ s.timestamp then s :: t :: ts
      else t :: insertDescByTime s ts

/-- Stable sort by descending timestamp. -/
def sortDescByTime : List Signal → List Signal
  | [] => []
  | s :: rest => insertDescByTime s (sortDescByTime rest)

/-- storage.ts `getSignals(limit)`: newest-first, truncated. -/
def getSignalsL (limit : Nat) (sigs : List Signal) : List Signal :=
  (sortDescByTime sigs).take limit

/-- storage.ts `getPendingSignals(limit)`. -/
def getPendingSignalsL (limit : Nat) (sigs : List Signal) : List Signal :=
  (sortDescByTime (sigs.filter fun s => s.status == "pending")).take limit

/-- The normalized, validated webhook payload after symbol resolution
(`mapSymbol`) and type normalization: the inputs of the core pipeline. -/
structure WebhookInput where
  sigType : String
  symbol : String
  price : Option String
  indicatorType : Option String
  entryPrice : Option String
  stopLoss : Option String
  takeProfit : Option String
deriving DecidableEq, Repr

/-- routes.ts webhook lines 298-310: the duplicate check over the 100 most
recent signals — same resolved symbol, same type, timestamp within the
60000 ms window (inclusive), status not 'failed'. -/
def isDuplicateB (recent : List Signal) (v : WebhookInput) (now : Int) : Bool :=
  recent.any fun s =>
    s.symbol == v.symbol && s.sigType == v.sigType &&
      decide (now - 60000 ≤ s.timestamp) && !(s.status == "failed")

/-- storage.ts `createSignal` applied to the webhook's validated payload. -/
def mkSignal (v : WebhookInput) (id : String) (now : Int) : Signal :=
  { id := id, sigType := v.sigType, symbol := v.symbol, price := v.price,
    source := "tradingview", status := "pending", errorMessage := none,
    indicatorType := v.indicatorType, entryPrice := v.entryPrice,
    stopLoss := v.stopLoss, takeProfit := v.takeProfit, timestamp := now }

/-- Which exit the webhook handler took. -/
inductive WebhookOutcome where
  | duplicate
  | noConnection
  | invalidSymbol
  | commandExists
  | enqueuedSent
  | enqueuedPending
  | autoTradeOff
deriving DecidableEq, Repr

/-- The reason text recorded on the signal when MT5 is not connected. -/
def notConnectedReason : String :=
  "MT5 not connected - signal will execute when MT5 connects"

/-- The reason text recorded on the signal when auto-trade is disabled. -/
def autoTradeOffReason : String :=
  "Auto-trade is disabled - enable it in settings to execute trades"

/-- routes.ts /api/webhook, from the validated signal onward: duplicate
check, signal creation, connectivity gate (heartbeat younger than 90000 ms),
symbol validation, SL/TP selection, and the command phase.  `channelOpen`
models whether `sendCommandToMT5` reaches an open client. -/
def webhook (st : Store) (v : WebhookInput) (now : Int)
    (newSigId newCmdId : String) (channelOpen : Bool) :
    Store × WebhookOutcome :=
  let recent := getSignalsL 100 st.signals
  if isDuplicateB recent v now then (st, .duplicate)
  else
    let sig := mkSignal v newSigId now
    let st1 := { st with signals := st.signals ++ [sig] }
    let connected : Bool :=
      match st1.settings.lastMt5Heartbeat with
      | some hb => decide (now - hb < 90000)
      | none => false
    if st1.settings.autoTrade == "true" then
      if !connected then
        let r : Option (Option String) := some (some notConnectedReason)
        ({ st1 with
            signals := updateSignalStatusL newSigId "pending" r st1.signals },
          .noConnection)
      else if !(isValidSymbol sig.symbol) then
        let r : Option (Option String) := some (some "Invalid symbol format")
        ({ st1 with
            signals := updateSignalStatusL newSigId "failed" r st1.signals },
          .invalidSymbol)
      else
        let useIndicatorLevels := sig.stopLoss.isSome && sig.takeProfit.isSome
        let slValue := if useIndicatorLevels then sig.stopLoss else none
        let tpValue := if useIndicatorLevels then sig.takeProfit else none
        let st2 := { st1 with
          signals := updateSignalStatusL newSigId "pending" none st1.signals }
        let phase := webhookCommandPhase newSigId sig.symbol sig.sigType slValue
          tpValue now newCmdId channelOpen st2.mt5Commands
        let st3 := { st2 with mt5Commands := phase.1 }
        if phase.2 then
          (st3, if channelOpen then .enqueuedSent else .enqueuedPending)
        else (st3, .commandExists)
    else
      let r : Option (Option String) := some (some autoTradeOffReason)
      ({ st1 with
          signals := updateSignalStatusL newSigId "pending" r st1.signals },
        .autoTradeOff)

/-! ## C7: the duplicate classification -/

/-- C7: a new signal is classified duplicate iff some signal in the examined
recent window has the same resolved symbol, the same direction, a timestamp
within 60000 ms (inclusive) of the arrival time, and a status other than
'failed'; and a duplicate short-circuits the webhook with the store
unchanged (no new signal and no command). -/
theorem C7_duplicate_check (recent : List Signal) (v : WebhookInput)
    (now : Int) :
    (isDuplicateB recent v now = true ↔
      ∃ s ∈ recent, s.symbol = v.symbol ∧ s.sigType = v.sigType ∧
        now - s.timestamp ≤ 60000 ∧ ¬ s.status = "failed") ∧
    (∀ (st : Store) (newSigId newCmdId : String) (ch : Bool),
      isDuplicateB (getSignalsL 100 st.signals) v now = true →
      webhook st v now newSigId newCmdId ch = (st, .duplicate)) := by
  constructor
  · unfold isDuplicateB
    rw [List.any_eq_true]
    constructor
    · rintro ⟨s, hs, hc⟩
      simp only [Bool.and_eq_true, beq_iff_eq, Bool.not_eq_true',
        decide_eq_true_eq] at hc
      obtain ⟨⟨⟨h1, h2⟩, h3⟩, h4⟩ := hc
      refine ⟨s, hs, h1, h2, by omega, ?_⟩
      intro hcontra
      rw [hcontra] at h4
      simp at h4
    · rintro ⟨s, hs, h1, h2, h3, h4⟩
      refine ⟨s, hs, ?_⟩
      simp only [Bool.and_eq_true, beq_iff_eq, Bool.not_eq_true',
        decide_eq_true_eq]
      refine ⟨⟨⟨h1, h2⟩, by omega⟩, ?_⟩
      simpa using h4
  · intro st a b c h
    unfold webhook
    simp [h]

/-- C7 witness store: one recent matching BUY EURUSD signal, 30 s old. -/
def c7Store : Store :=
  { signals := [sampleSignal "s0" "pending" 30000], trades := [],
    mt5Commands := [], mt5ExecutionResults := [], settings := sampleSettings }

/-- C7 witness input: a new BUY EURUSD signal. -/
def c7Input : WebhookInput :=
  { sigType := "BUY", symbol := "EURUSD", price := none,
    indicatorType := none, entryPrice := none, stopLoss := none,
    takeProfit := none }

/-- C7 witness: the characterization and the short-circuit applied at a
concrete store holding one matching recent signal 30 s old. -/
theorem C7_duplicate_check_witness :
    isDuplicateB (getSignalsL 100 c7Store.signals) c7Input 60000 = true ∧
    webhook c7Store c7Input 60000 "s1" "c1" true = (c7Store, .duplicate) := by
  refine ⟨by decide, ?_⟩
  exact (C7_duplicate_check (getSignalsL 100 c7Store.signals) c7Input 60000).2
    c7Store "s1" "c1" true (by decide)

/-! ## C6: ingestion while disconnected, and the connect-time retry -/

/-- One iteration of the connect handler's pending-signal retry loop
(routes.ts lines 682-712): enqueue a TRADE command for the signal with a
fresh id, send it, and on a successful send mark it sent and tag the
signal. -/
def retryCmd (now : Int) (p : Signal × String) : Mt5Command :=
  { id := p.2, action := "TRADE", symbol := some p.1.symbol,
    cmdType := some p.1.sigType, volume := some "0.01",
    stopLoss := p.1.stopLoss, takeProfit := p.1.takeProfit,
    positionId := none, signalId := some p.1.id, status := .pending,
    createdAt := now, sentAt := none, acknowledgedAt := none,
    errorMessage := none }

def retryStep (now : Int) (sendOk : Bool) (st : Store) (p : Signal × String) :
    Store :=
  let cmd : Mt5Command := retryCmd now p
  let st1 := { st with mt5Commands := st.mt5Commands ++ [cmd] }
  if sendOk then
    let st2 := { st1 with
      mt5Commands := markCommandAsSentL now p.2 st1.mt5Commands }
    let r : Option (Option String) :=
      some (some "Executing after MT5 reconnection")
    { st2 with signals := updateSignalStatusL p.1.id "pending" r st2.signals }
  else st1

/-- The pending signals the connect handler retries (routes.ts lines
669-675): pending signals (top 100) that have no pending-for-delivery
command, judged against the command snapshot taken before the replay
loop. -/
def connectRetryList (now : Int) (st : Store) : List Signal :=
  let st1 := updateMt5HeartbeatS now st
  let allPending := getPendingCommandsL st1.mt5Commands
  let st2 := connectReplayStore now st1
  (getPendingSignalsL 100 st2.signals).filter fun s =>
    !(allPending.any fun c => c.signalId = some s.id)

/-- routes.ts mt5Wss connection handler: heartbeat, replay pass, and — when
auto-trade is enabled — the pending-signal retry loop, pairing each retried
signal with a fresh command id. -/
def mt5Connect (now : Int) (newIds : List String) (sendOk : Bool)
    (st : Store) : Store :=
  let st2 := connectReplayStore now (updateMt5HeartbeatS now st)
  if st2.settings.autoTrade == "true" then
    ((connectRetryList now st).zip newIds).foldl (retryStep now sendOk) st2
  else st2

/-- C6 counterexample store: auto-trade enabled, no heartbeat ever received,
nothing stored. -/
def c6Store : Store :=
  { signals := [], trades := [], mt5Commands := [], mt5ExecutionResults := [],
    settings := { mt5ApiSecret := none, accountBalance := "10000",
                  autoTrade := "true", lastMt5Heartbeat := none } }

/-- C6 input: the spec's scenario signal BUY EURUSD stop 1.08500 target
1.08800. -/
def c6Input : WebhookInput :=
  { sigType := "BUY", symbol := "EURUSD", price := some "1.08600",
    indicatorType := none, entryPrice := none,
    stopLoss := some "1.08500", takeProfit := some "1.08800" }

/-- C6 counterexample: ingesting the scenario signal while no channel is
connected (no heartbeat) creates NO command at all — the claim's "a command
is created and remains in status pending" fails at this concrete input; the
signal alone remains pending with the not-connected reason. -/
theorem C6_counterexample :
    (webhook c6Store c6Input 1000 "s1" "c1" false).1.mt5Commands = [] ∧
    (webhook c6Store c6Input 1000 "s1" "c1" false).2 = .noConnection ∧
    getSignalByIdL "s1" (webhook c6Store c6Input 1000 "s1" "c1" false).1.signals =
      some { mkSignal c6Input "s1" 1000 with
             errorMessage := some notConnectedReason } := by
  refine ⟨by decide, by decide, by decide⟩

theorem updateSigL_append_fresh (id status : String)
    (errArg : Option (Option String)) (sigs : List Signal) (newSig : Signal)
    (hfresh : ∀ s ∈ sigs, ¬ s.id = id) (hid : newSig.id = id) :
    updateSignalStatusL id status errArg (sigs ++ [newSig]) =
      sigs ++ [{ newSig with
                 status := status,
                 errorMessage := match errArg with
                   | some e => e
                   | none => newSig.errorMessage }] := by
  unfold updateSignalStatusL
  rw [List.map_append]
  congr 1
  · conv_rhs => rw [← List.map_id sigs]
    apply List.map_congr_left
    intro s hs
    simp [hfresh s hs]
  · simp [hid]

theorem getSignalByIdL_append_fresh (id : String) (sigs : List Signal)
    (x : Signal) (hfresh : ∀ s ∈ sigs, ¬ s.id = id) (hid : x.id = id) :
    getSignalByIdL id (sigs ++ [x]) = some x := by
  unfold getSignalByIdL
  induction sigs with
  | nil => simp [List.find?_cons, hid]
  | cons s ss ih =>
    have hs : ¬ s.id = id := hfresh s (by simp)
    simp only [List.cons_append, List.find?_cons]
    rw [show (decide (s.id = id)) = false from decide_eq_false hs]
    exact ih fun t ht => hfresh t (by simp [ht])


theorem connectReplayStep_settings (now : Int) (st : Store) (c : Mt5Command) :
    (connectReplayStep now st c).settings = st.settings := by
  unfold connectReplayStep
  cases c.signalId <;> rfl

theorem foldl_replay_settings (now : Int) : ∀ (todo : List Mt5Command)
    (st : Store),
    (todo.foldl (connectReplayStep now) st).settings = st.settings := by
  intro todo
  induction todo with
  | nil => intro st; rfl
  | cons t ts ih =>
    intro st
    show (ts.foldl (connectReplayStep now) (connectReplayStep now st t)).settings = _
    rw [ih (connectReplayStep now st t), connectReplayStep_settings]

theorem connectReplayStore_settings (now : Int) (st : Store) :
    (connectReplayStore now st).settings = st.settings := by
  unfold connectReplayStore
  exact foldl_replay_settings now _ st

theorem retryStep_preserves (now : Int) (sendOk : Bool) (sid : String)
    (st : Store) (p : Signal × String)
    (h : ∃ c ∈ st.mt5Commands,
      c.signalId = some sid ∧ c.status = .sent ∧ c.action = "TRADE") :
    ∃ c ∈ (retryStep now sendOk st p).mt5Commands,
      c.signalId = some sid ∧ c.status = .sent ∧ c.action = "TRADE" := by
  obtain ⟨c, hc, h1, h2, h3⟩ := h
  unfold retryStep
  cases sendOk with
  | false =>
    simp only [Bool.false_eq_true, if_false]
    exact ⟨c, List.mem_append_left _ hc, h1, h2, h3⟩
  | true =>
    simp only [if_true]
    unfold markCommandAsSentL
    refine ⟨if c.id = p.2
        then { c with status := .sent, sentAt := some now } else c,
      List.mem_map_of_mem _ (List.mem_append_left _ hc), ?_⟩
    by_cases hcp : c.id = p.2 <;> simp [hcp, h1, h2, h3]

theorem foldl_retry_preserves (now : Int) (sendOk : Bool) (sid : String) :
    ∀ (l : List (Signal × String)) (st : Store),
    (∃ c ∈ st.mt5Commands,
      c.signalId = some sid ∧ c.status = .sent ∧ c.action = "TRADE") →
    ∃ c ∈ (l.foldl (retryStep now sendOk) st).mt5Commands,
      c.signalId = some sid ∧ c.status = .sent ∧ c.action = "TRADE" := by
  intro l
  induction l with
  | nil => intro st h; exact h
  | cons x xs ih =>
    intro st h
    exact ih (retryStep now sendOk st x) (retryStep_preserves now sendOk sid st x h)

theorem retryStep_establishes (now : Int) (st : Store) (p : Signal × String) :
    ∃ c ∈ (retryStep now true st p).mt5Commands,
      c.signalId = some p.1.id ∧ c.status = .sent ∧ c.action = "TRADE" := by
  unfold retryStep
  simp only [if_true]
  unfold markCommandAsSentL
  refine ⟨{ retryCmd now p with status := .sent, sentAt := some now },
    List.mem_map.mpr ⟨retryCmd now p, List.mem_append_right _ (by simp), ?_⟩,
    rfl, rfl, rfl⟩
  rw [if_pos (show (retryCmd now p).id = p.2 from rfl)]

theorem foldl_retry_reaches (now : Int) (sid : String) :
    ∀ (l : List Signal) (ids : List String) (st : Store) (sig : Signal),
    sig ∈ l → sig.id = sid → l.length ≤ ids.length →
    ∃ c ∈ ((l.zip ids).foldl (retryStep now true) st).mt5Commands,
      c.signalId = some sid ∧ c.status = .sent ∧ c.action = "TRADE" := by
  intro l
  induction l with
  | nil => intro ids st sig h; cases h
  | cons x xs ih =>
    intro ids st sig hmem hid hlen
    cases ids with
    | nil => simp at hlen
    | cons i is =>
      show ∃ c ∈ ((xs.zip is).foldl (retryStep now true)
          (retryStep now true st (x, i))).mt5Commands,
        c.signalId = some sid ∧ c.status = .sent ∧ c.action = "TRADE"
      rcases List.mem_cons.mp hmem with hx | hx
      · subst hx
        apply foldl_retry_preserves
        have h := retryStep_establishes now st (sig, i)
        rw [hid] at h
        exact h
      · exact ih is (retryStep now true st (x, i)) sig hx hid
          (by simpa using Nat.le_of_succ_le_succ (by simpa using hlen))

/-- C6 amended: while the agent is disconnected (last heartbeat absent or at
least 90000 ms old), the webhook creates NO command at ingestion time — only
the signal, which remains 'pending' with the not-connected reason; the TRADE
command for such a signal is created only by the connect handler's retry
pass, which enqueues it, sends it, and marks it 'sent' in the same pass. -/
theorem C6_disconnected_then_connect (st : Store) (v : WebhookInput)
    (now : Int) (nsid ncid : String) (ch : Bool)
    (hauto : st.settings.autoTrade = "true")
    (hstale : ∀ hb, st.settings.lastMt5Heartbeat = some hb → 90000 ≤ now - hb)
    (hdup : isDuplicateB (getSignalsL 100 st.signals) v now = false)
    (hfresh : ∀ s ∈ st.signals, ¬ s.id = nsid) :
    ((webhook st v now nsid ncid ch).1.mt5Commands = st.mt5Commands ∧
     (webhook st v now nsid ncid ch).2 = .noConnection ∧
     getSignalByIdL nsid (webhook st v now nsid ncid ch).1.signals =
       some { mkSignal v nsid now with
              errorMessage := some notConnectedReason }) ∧
    (∀ (st' : Store) (now2 : Int) (newIds : List String) (sig : Signal),
      st'.settings.autoTrade = "true" →
      sig ∈ connectRetryList now2 st' →
      (connectRetryList now2 st').length ≤ newIds.length →
      ∃ c ∈ (mt5Connect now2 newIds true st').mt5Commands,
        c.signalId = some sig.id ∧ c.status = .sent ∧ c.action = "TRADE") := by
  constructor
  · have hconn : (match st.settings.lastMt5Heartbeat with
        | some hb => decide (now - hb < 90000)
        | none => false) = false := by
      cases hhb : st.settings.lastMt5Heartbeat with
      | none => rfl
      | some hb =>
        have := hstale hb hhb
        simp only [decide_eq_false_iff_not]
        omega
    have hupd :
        updateSignalStatusL nsid "pending" (some (some notConnectedReason))
          (st.signals ++ [mkSignal v nsid now]) =
        st.signals ++ [{ mkSignal v nsid now with
          errorMessage := some notConnectedReason }] :=
      updateSigL_append_fresh nsid "pending"
        (some (some notConnectedReason)) st.signals (mkSignal v nsid now)
        hfresh rfl
    unfold webhook
    simp only [hdup, Bool.false_eq_true, if_false, hauto, beq_self_eq_true,
      if_true, hconn, Bool.not_false]
    refine ⟨trivial, trivial, ?_⟩
    show getSignalByIdL nsid
      (updateSignalStatusL nsid "pending" (some (some notConnectedReason))
        (st.signals ++ [mkSignal v nsid now])) = _
    rw [hupd]
    exact getSignalByIdL_append_fresh nsid st.signals _
      (fun s hs => hfresh s hs) rfl
  · intro st' now2 newIds sig hauto' hmem hlen
    unfold mt5Connect
    have hset : (connectReplayStore now2
        (updateMt5HeartbeatS now2 st')).settings.autoTrade = "true" := by
      rw [connectReplayStore_settings]
      exact hauto'
    simp only [hset, beq_self_eq_true, if_true]
    exact foldl_retry_reaches now2 sig.id (connectRetryList now2 st') newIds
      (connectReplayStore now2 (updateMt5HeartbeatS now2 st')) sig hmem rfl hlen

/-- C6 witness store for the connect half: one pending signal s1 without any
command, auto-trade on. -/
def c6RetryStore : Store :=
  { signals := [sampleSignal "s1" "pending" 0], trades := [],
    mt5Commands := [], mt5ExecutionResults := [], settings := sampleSettings }

/-- C6 witness: both halves of the amended theorem at concrete inputs — the
webhook with no heartbeat creates no command and leaves the pending signal
with the not-connected reason, and connecting afterwards creates and sends a
TRADE command for the pending signal. -/
theorem C6_disconnected_then_connect_witness :
    ((webhook c6Store c6Input 1000 "s1" "c1" false).1.mt5Commands =
        c6Store.mt5Commands ∧
      getSignalByIdL "s1" (webhook c6Store c6Input 1000 "s1" "c1" false).1.signals =
        some { mkSignal c6Input "s1" 1000 with
               errorMessage := some notConnectedReason }) ∧
    ∃ c ∈ (mt5Connect 50 ["c9"] true c6RetryStore).mt5Commands,
      c.signalId = some (sampleSignal "s1" "pending" 0).id ∧
      c.status = .sent ∧ c.action = "TRADE" := by
  have h := C6_disconnected_then_connect c6Store c6Input 1000 "s1" "c1" false
    rfl (by intro hb hcontra; cases hcontra) (by decide) (by intro s hs; cases hs)
  refine ⟨⟨h.1.1, h.1.2.2⟩, ?_⟩
  exact h.2 c6RetryStore 50 ["c9"] (sampleSignal "s1" "pending" 0) rfl
    (by decide) (by decide)

/-- C8: the timeout sweep (`retryTimedOutCommands`) transitions every command
in status 'sent' for strictly more than 60000 ms (without acknowledgment) to
'failed' with the non-empty reason "Command timeout - no acknowledgement
received"; a command sent 59999 ms ago is unchanged; the sweep creates no new
command (it is a pointwise map, preserving the command count, every id, and
every creation timestamp). -/
theorem C8_timeout_sweep (now : Int) (cmds : List Mt5Command) :
    (∀ c ∈ cmds, ∀ t, c.status = .sent → c.sentAt = some t → now - t > 60000 →
        sweepOne now c =
          { c with status := .failed,
                   errorMessage := some timeoutReason }) ∧
    timeoutReason ≠ "" ∧
    (∀ c ∈ cmds, ∀ t, c.sentAt = some t → now - t = 59999 →
        sweepOne now c = c) ∧
    retryTimedOutL now cmds = cmds.map (sweepOne now) ∧
    (retryTimedOutL now cmds).length = cmds.length ∧
    (retryTimedOutL now cmds).map (fun c => (c.id, c.createdAt)) =
      cmds.map (fun c => (c.id, c.createdAt)) ∧
    ∀ c ∈ cmds, (sweepOne now c).status = c.status ∨
        (sweepOne now c).status = .failed := by
  refine ⟨?_, by decide, ?_, rfl, by simp [retryTimedOutL], ?_, ?_⟩
  · intro c _ t hs hsent hgt
    simp [sweepOne, timedOut, hs, hsent, commandTimeoutMs, hgt]
  · intro c _ t hsent heq
    have hle : ¬ now - t > commandTimeoutMs := by
      simp [commandTimeoutMs, heq]
    simp [sweepOne, timedOut, hsent, hle]
  · simp only [retryTimedOutL_eq_map, List.map_map]
    apply List.map_congr_left
    intro c _
    by_cases h : timedOut now c = true <;> simp [sweepOne, h]
  · intro c _
    by_cases h : timedOut now c = true <;> simp [sweepOne, h]

/-- C8 witness: applying the sweep theorem at a concrete store containing one
command sent 60001 ms ago (swept to 'failed') and one sent 59999 ms ago
(unchanged). -/
theorem C8_timeout_sweep_witness :
    (sweepOne 100000
        { id := "c1", action := "TRADE", symbol := some "EURUSD",
          cmdType := some "BUY", volume := some "0.01", stopLoss := none,
          takeProfit := none, positionId := none, signalId := some "s1",
          status := .sent, createdAt := 0, sentAt := some 39999,
          acknowledgedAt := none, errorMessage := none } =
      { id := "c1", action := "TRADE", symbol := some "EURUSD",
        cmdType := some "BUY", volume := some "0.01", stopLoss := none,
        takeProfit := none, positionId := none, signalId := some "s1",
        status := .failed, createdAt := 0, sentAt := some 39999,
        acknowledgedAt := none,
        errorMessage := some timeoutReason }) ∧
    (sweepOne 100000
        { id := "c2", action := "TRADE", symbol := some "EURUSD",
          cmdType := some "SELL", volume := some "0.01", stopLoss := none,
          takeProfit := none, positionId := none, signalId := some "s2",
          status := .sent, createdAt := 1, sentAt := some 40001,
          acknowledgedAt := none, errorMessage := none } =
      { id := "c2", action := "TRADE", symbol := some "EURUSD",
        cmdType := some "SELL", volume := some "0.01", stopLoss := none,
        takeProfit := none, positionId := none, signalId := some "s2",
        status := .sent, createdAt := 1, sentAt := some 40001,
        acknowledgedAt := none, errorMessage := none }) := by
  have h := C8_timeout_sweep 100000
    [{ id := "c1", action := "TRADE", symbol := some "EURUSD",
       cmdType := some "BUY", volume := some "0.01", stopLoss := none,
       takeProfit := none, positionId := none, signalId := some "s1",
       status := .sent, createdAt := 0, sentAt := some 39999,
       acknowledgedAt := none, errorMessage := none },
     { id := "c2", action := "TRADE", symbol := some "EURUSD",
       cmdType := some "SELL", volume := some "0.01", stopLoss := none,
       takeProfit := none, positionId := none, signalId := some "s2",
       status := .sent, createdAt := 1, sentAt := some 40001,
       acknowledgedAt := none, errorMessage := none }]
  refine ⟨?_, ?_⟩
  · exact h.1 _ (by simp) 39999 rfl rfl (by decide)
  · exact h.2.2.1 _ (by simp) 40001 rfl (by decide)

/-! ## Remote agent (src/mt5-files/TradingViewWebSocket_EA.mq5)

Price/volume arithmetic of the EA is embedded exactly over `ℚ`; broker
operations (`OrderSend`) are assumed to succeed, so the embedding returns
the requests the EA issues. -/

/-- MQL5 `MathRound`: nearest integer, ties away from zero. -/
def mqlRound (q : ℚ) : Int :=
  if 0 ≤ q then ⌊q + 1 / 2⌋ else -⌊-q + 1 / 2⌋

/-- MQL5 `NormalizeDouble`: round to `digits` decimal places. -/
def normalizeDigits (digits : Nat) (q : ℚ) : ℚ :=
  (mqlRound (q * (10 : ℚ) ^ digits) : ℚ) / (10 : ℚ) ^ digits

/-- The broker/symbol parameters the EA queries via `SymbolInfo*`. -/
structure SymbolInfo where
  tickSize : ℚ
  point : ℚ
  digits : Nat
  volumeMin : ℚ
  volumeMax : ℚ
  volumeStep : ℚ
  bid : ℚ
  ask : ℚ
deriving DecidableEq, Repr

/-- EA `NormalizePrice`: snap to tick size (falling back to the point), then
`NormalizeDouble` to the symbol's digits. -/
def NormalizePrice (si : SymbolInfo) (price : ℚ) : ℚ :=
  let tick := if si.tickSize = 0 then si.point else si.tickSize
  normalizeDigits si.digits ((mqlRound (price / tick) : ℚ) * tick)

/-- EA `NormalizeVolume`: snap to the lot step (default 0.01), clamp to the
symbol's min/max volume. -/
def NormalizeVolume (si : SymbolInfo) (volume : ℚ) : ℚ :=
  let step := if si.volumeStep = 0 then 1 / 100 else si.volumeStep
  let v := (mqlRound (volume / step) : ℚ) * step
  let v1 := if v < si.volumeMin then si.volumeMin else v
  if v1 > si.volumeMax then si.volumeMax else v1

/-- Character-list helper: `pat` begins the list. -/
def startsWithL : List Char → List Char → Bool
  | [], _ => true
  | _ :: _, [] => false
  | p :: ps, c :: cs => p == c && startsWithL ps cs

/-- Character-list helper: `pat` occurs somewhere in the list (MQL5
`StringFind(s, pat) >= 0`). -/
def hasSubL (pat : List Char) : List Char → Bool
  | [] => startsWithL pat []
  | c :: cs => startsWithL pat (c :: cs) || hasSubL pat cs

/-- MQL5 `StringFind(s, pat) >= 0`. -/
def strContains (s pat : String) : Bool := hasSubL pat.toList s.toList

/-- EA `GetPipValue`: symbol-class table (crypto, gold, silver, JPY,
default forex). -/
def GetPipValue (symbol : String) : ℚ :=
  if strContains symbol "BTC" || strContains symbol "ETH" ||
      strContains symbol "XRP" || strContains symbol "LTC" then 1
  else if strContains symbol "XAU" || strContains symbol "GOLD" then 1 / 10
  else if strContains symbol "XAG" || strContains symbol "SILVER" then 1 / 100
  else if strContains symbol "JPY" then 1 / 100
  else 1 / 10000

theorem GetPipValue_pos (symbol : String) : 0 < GetPipValue symbol := by
  unfold GetPipValue
  split <;> try norm_num
  split <;> try norm_num
  split <;> try norm_num
  split <;> norm_num

/-- Broker position direction. -/
inductive PosType where
  | buy
  | sell
deriving DecidableEq, Repr

/-- A live broker position as the EA sees it; `tp1FromComment` is
`GetTP1FromComment(POSITION_COMMENT)` — 0 when the comment carries no
"|TP1:" marker. -/
structure EAPosition where
  ticket : Nat
  symbol : String
  posType : PosType
  openPrice : ℚ
  volume : ℚ
  tp1FromComment : ℚ
deriving DecidableEq, Repr

/-- The EA input parameters used by the embedded functions. -/
structure EAConfig where
  hedging : Bool
  pyramiding : Nat
  useRiskBasedLotSize : Bool
  riskPercentPerTrade : ℚ
  fixedLotSize : ℚ
  useFixedExit : Bool
  exitPercent : ℚ
  exitPips : ℚ
deriving DecidableEq, Repr

/-- The partial-close volume and the single TRADE_ACTION_SLTP modify (stop,
target) issued for one position by one firing of the staged exit. -/
structure StageActions where
  exitVolume : ℚ
  newSL : ℚ
  newTP : ℚ
deriving DecidableEq, Repr

/-- EA `ManagePartialExits`, one position, one tick, broker accepting: `none`
when no partial exit fires (already flagged positions are skipped by the
caller), otherwise the closed volume (`PartialExitPercent` of the position,
lot-normalized) together with the single position-modify carrying the
break-even stop (the open price) and the stage-2 target (2× the stage-1
distance from the open price). -/
def managePartialExitOne (cfg : EAConfig) (si : SymbolInfo)
    (pos : EAPosition) : Option StageActions :=
  let openPrice := pos.openPrice
  let currentPrice := match pos.posType with
    | .buy => si.bid
    | .sell => si.ask
  let pip := GetPipValue pos.symbol
  let priceDiff := match pos.posType with
    | .buy => currentPrice - openPrice
    | .sell => openPrice - currentPrice
  let profitPips := priceDiff / pip
  let trig : Option (ℚ × ℚ) :=
    if cfg.useFixedExit then some (cfg.exitPips, 0)
    else
      let tp1 := pos.tp1FromComment
      if tp1 > 0 then
        some ((match pos.posType with
          | .buy => tp1 - openPrice
          | .sell => openPrice - tp1) / pip, tp1)
      else none
  match trig with
  | none => none
  | some (exitTriggerPips, tp1Price) =>
    if exitTriggerPips > 0 ∧ profitPips ≥ exitTriggerPips then
      let exitVolume := NormalizeVolume si (pos.volume * cfg.exitPercent / 100)
      if 0 < exitVolume ∧ exitVolume < pos.volume then
        let newTP : ℚ :=
          if tp1Price > 0 then
            let tpDistance := match pos.posType with
              | .buy => tp1Price - openPrice
              | .sell => openPrice - tp1Price
            NormalizePrice si (match pos.posType with
              | .buy => openPrice + 2 * tpDistance
              | .sell => openPrice - 2 * tpDistance)
          else if cfg.useFixedExit then
            NormalizePrice si (match pos.posType with
              | .buy => openPrice + cfg.exitPips * 2 * pip
              | .sell => openPrice - cfg.exitPips * 2 * pip)
          else 0
        let newSL := NormalizePrice si openPrice
        some { exitVolume := exitVolume, newSL := newSL, newTP := newTP }
      else none
    else none

/-- C9: for a position managed by the indicator-target staged exit (default
configuration: `UseFixedPartialExit=false`, `PartialExitPercent=75`), when
the profit distance reaches the stage-1 distance D (the distance from the
open price P to the comment-carried TP1), the EA closes the lot-normalized
75% of the volume and issues ONE position-modify carrying the break-even
stop `NormalizePrice(P)` and the stage-2 target `NormalizePrice(P + 2*D)`
(mirrored `NormalizePrice(P - 2*D)` for shorts). -/
theorem C9_staged_exit (cfg : EAConfig) (si : SymbolInfo) (pos : EAPosition)
    (D : ℚ)
    (hfix : cfg.useFixedExit = false)
    (hpct : cfg.exitPercent = 75)
    (hD : 0 < D)
    (hopen : 0 < pos.openPrice)
    (hDo : D < pos.openPrice)
    (hvolpos : 0 < NormalizeVolume si (pos.volume * 75 / 100))
    (hvollt : NormalizeVolume si (pos.volume * 75 / 100) < pos.volume) :
    (pos.posType = .buy → pos.tp1FromComment = pos.openPrice + D →
      D ≤ si.bid - pos.openPrice →
      managePartialExitOne cfg si pos = some
        { exitVolume := NormalizeVolume si (pos.volume * 75 / 100),
          newSL := NormalizePrice si pos.openPrice,
          newTP := NormalizePrice si (pos.openPrice + 2 * D) }) ∧
    (pos.posType = .sell → pos.tp1FromComment = pos.openPrice - D →
      D ≤ pos.openPrice - si.ask →
      managePartialExitOne cfg si pos = some
        { exitVolume := NormalizeVolume si (pos.volume * 75 / 100),
          newSL := NormalizePrice si pos.openPrice,
          newTP := NormalizePrice si (pos.openPrice - 2 * D) }) := by
  have hpip := GetPipValue_pos pos.symbol
  constructor
  · intro hb htp hprof
    have htp1pos : (0 : ℚ) < pos.openPrice + D := by linarith
    have hdist : pos.openPrice + D - pos.openPrice = D := by ring
    have htrigpos : 0 < D / GetPipValue pos.symbol := div_pos hD hpip
    have hprofge : D / GetPipValue pos.symbol ≤
        (si.bid - pos.openPrice) / GetPipValue pos.symbol := by
      apply div_le_div_of_nonneg_right hprof hpip.le
    have h2 : pos.openPrice + 2 * (pos.openPrice + D - pos.openPrice) =
        pos.openPrice + 2 * D := by ring
    unfold managePartialExitOne
    simp only [hb, htp, hfix, Bool.false_eq_true, if_false]
    rw [if_pos htp1pos]
    simp only [hdist, hpct]
    rw [if_pos ⟨htrigpos, hprofge⟩, if_pos ⟨hvolpos, hvollt⟩, if_pos htp1pos]
  · intro hs htp hprof
    have htp1pos : (0 : ℚ) < pos.openPrice - D := by linarith
    have hdist : pos.openPrice - (pos.openPrice - D) = D := by ring
    have htrigpos : 0 < D / GetPipValue pos.symbol := div_pos hD hpip
    have hprofge : D / GetPipValue pos.symbol ≤
        (pos.openPrice - si.ask) / GetPipValue pos.symbol := by
      apply div_le_div_of_nonneg_right hprof hpip.le
    have h2 : pos.openPrice - 2 * (pos.openPrice - (pos.openPrice - D)) =
        pos.openPrice - 2 * D := by ring
    unfold managePartialExitOne
    simp only [hs, htp, hfix, Bool.false_eq_true, if_false]
    rw [if_pos htp1pos]
    simp only [hdist, hpct]
    rw [if_pos ⟨htrigpos, hprofge⟩, if_pos ⟨hvolpos, hvollt⟩, if_pos htp1pos]

/-- The EA's default configuration (input parameters at their declared
defaults). -/
def eaCfg : EAConfig :=
  { hedging := true, pyramiding := 1, useRiskBasedLotSize := true,
    riskPercentPerTrade := 1, fixedLotSize := 1 / 100, useFixedExit := false,
    exitPercent := 75, exitPips := 50 }

/-- A standard 5-digit EURUSD symbol with bid 1.10500 / ask 1.10520. -/
def eurusdInfo : SymbolInfo :=
  { tickSize := 1 / 100000, point := 1 / 100000, digits := 5,
    volumeMin := 1 / 100, volumeMax := 100, volumeStep := 1 / 100,
    bid := 1105 / 1000, ask := 11052 / 10000 }

/-- C9 witness position: long 1.00 lot EURUSD opened at P=1.10000 with
stage-1 target P+D, D=0.00500. -/
def c9Pos : EAPosition :=
  { ticket := 1, symbol := "EURUSD", posType := .buy, openPrice := 11 / 10,
    volume := 1, tp1FromComment := 11 / 10 + 1 / 200 }

/-- C9 witness: the spec's numeric instance P=1.10000, D=0.00500 — the EA
closes 0.75 of the 1.00 lot and issues one modify with stage-2
target 1.11000 and break-even stop 1.10000. -/
theorem C9_staged_exit_witness :
    managePartialExitOne eaCfg eurusdInfo c9Pos =
      some { exitVolume := 3 / 4, newSL := 11 / 10, newTP := 111 / 100 } := by
  have h := (C9_staged_exit eaCfg eurusdInfo c9Pos (1 / 200) rfl rfl
    (by norm_num) (by norm_num [c9Pos]) (by norm_num [c9Pos])
    (by norm_num [NormalizeVolume, mqlRound, eurusdInfo, c9Pos])
    (by norm_num [NormalizeVolume, mqlRound, eurusdInfo, c9Pos])).1
    rfl (by norm_num [c9Pos]) (by norm_num [c9Pos, eurusdInfo])
  rw [h]
  have e1 : NormalizeVolume eurusdInfo (c9Pos.volume * 75 / 100) = 3 / 4 := by
    norm_num [NormalizeVolume, mqlRound, eurusdInfo, c9Pos]
  have e2 : NormalizePrice eurusdInfo c9Pos.openPrice = 11 / 10 := by
    norm_num [NormalizePrice, normalizeDigits, mqlRound, eurusdInfo, c9Pos]
  have e3 : NormalizePrice eurusdInfo (c9Pos.openPrice + 2 * (1 / 200)) =
      111 / 100 := by
    norm_num [NormalizePrice, normalizeDigits, mqlRound, eurusdInfo, c9Pos]
  rw [e1, e2, e3]

/-- A TRADE command as the EA parses it from JSON (`StringToDouble` of a
missing field yields 0). -/
structure TradeCmd where
  symbol : String
  cmdType : String
  volume : ℚ
  stopLoss : ℚ
  takeProfit : ℚ
deriving DecidableEq, Repr

/-- The terminal-side context `ExecuteTrade` queries: symbol availability,
account balance, tick value and the open positions. -/
structure ExecContext where
  symbolReady : Bool
  accountBalance : ℚ
  tickValue : ℚ
  positions : List EAPosition
deriving DecidableEq, Repr

/-- The broker order request `ExecuteTrade` submits at position-open time
(the `MqlTradeRequest` fields it fills); the comment string
"TradingView|TP1:t" is embedded as the carried value `commentTp1` (absent
when no positive target). -/
structure OpenRequest where
  symbol : String
  volume : ℚ
  orderType : PosType
  price : ℚ
  sl : ℚ
  tp : ℚ
  commentTp1 : Option ℚ
deriving DecidableEq, Repr

/-- EA `CloseOppositePositions`, with the broker accepting each close. -/
def closeOppositePositions (symbol tradeType : String)
    (positions : List EAPosition) : List EAPosition :=
  positions.filter fun q =>
    !(q.symbol == symbol &&
      ((tradeType == "BUY" && q.posType == PosType.sell) ||
        (tradeType == "SELL" && q.posType == PosType.buy)))

/-- EA `CountPositionsForSymbol`. -/
def CountPositionsForSymbol (symbol : String)
    (positions : List EAPosition) : Nat :=
  (positions.filter fun q => q.symbol == symbol).length

/-- Lines 818-822 of the EA: normalize a price level when it is set
(greater than 0), keep it as-is otherwise. -/
def normLevel (si : SymbolInfo) (x : ℚ) : ℚ :=
  if x > 0 then NormalizePrice si x else x

/-- The open positions after the optional hedging close. -/
def hedgedPositions (cfg : EAConfig) (ctx : ExecContext) (cmd : TradeCmd) :
    List EAPosition :=
  if cfg.hedging then closeOppositePositions cmd.symbol cmd.cmdType ctx.positions
  else ctx.positions

/-- The execution price: ask for BUY, bid otherwise. -/
def currentPriceFor (si : SymbolInfo) (cmdType : String) : ℚ :=
  if cmdType == "BUY" then si.ask else si.bid

/-- Lines 824-856 of the EA: risk-based lot size when enabled and a stop is
set, the fixed lot size otherwise. -/
def calcVolume0 (cfg : EAConfig) (si : SymbolInfo) (ctx : ExecContext)
    (symbol : String) (currentPrice stopLoss : ℚ) : ℚ :=
  let pip := GetPipValue symbol
  if cfg.useRiskBasedLotSize ∧ stopLoss > 0 then
    let slPips := |currentPrice - stopLoss| / pip
    let riskAmount := ctx.accountBalance * (cfg.riskPercentPerTrade / 100)
    let pipValuePerLot := ctx.tickValue / si.tickSize * pip
    NormalizeVolume si (riskAmount / (slPips * pipValuePerLot))
  else cfg.fixedLotSize

/-- The order request the EA submits: take-profit field hard-coded to 0, the
intended target in the comment channel exactly when positive. -/
def mkOpenRequest (cmd : TradeCmd) (ot : PosType)
    (volume currentPrice stopLoss takeProfit : ℚ) : OpenRequest :=
  { symbol := cmd.symbol, volume := volume, orderType := ot,
    price := currentPrice, sl := stopLoss, tp := 0,
    commentTp1 := if takeProfit > 0 then some takeProfit else none }

/-- EA `ExecuteTrade`: input checks, hedging close, pyramiding cap, SL/TP
normalization, lot sizing (risk-based or fixed), volume and SL/TP
validation, then the market order request — with the take-profit field of
the request always 0 and the intended stage-1 target carried only in the
order comment. -/
def ExecuteTrade (cfg : EAConfig) (si : SymbolInfo) (ctx : ExecContext)
    (cmd : TradeCmd) : Except String OpenRequest :=
  if cmd.symbol = "" ∨ cmd.cmdType = "" then
    .error "Missing symbol or type"
  else if !ctx.symbolReady then
    .error ("Symbol not available: " ++ cmd.symbol)
  else if cfg.pyramiding ≤
      CountPositionsForSymbol cmd.symbol (hedgedPositions cfg ctx cmd) then
    .error ("Max positions reached for " ++ cmd.symbol)
  else
    let currentPrice := currentPriceFor si cmd.cmdType
    let stopLoss := normLevel si cmd.stopLoss
    let takeProfit := normLevel si cmd.takeProfit
    let volume := NormalizeVolume si
      (calcVolume0 cfg si ctx cmd.symbol currentPrice stopLoss)
    if volume ≤ 0 then .error "Invalid calculated volume"
    else if cmd.cmdType == "BUY" then
      if stopLoss > 0 ∧ stopLoss ≥ currentPrice then
        .error "Invalid SL for BUY"
      else if takeProfit > 0 ∧ takeProfit ≤ currentPrice then
        .error "Invalid TP for BUY"
      else
        .ok (mkOpenRequest cmd .buy volume currentPrice stopLoss takeProfit)
    else
      if stopLoss > 0 ∧ stopLoss ≤ currentPrice then
        .error "Invalid SL for SELL"
      else if takeProfit > 0 ∧ takeProfit ≥ currentPrice then
        .error "Invalid TP for SELL"
      else
        .ok (mkOpenRequest cmd .sell volume currentPrice stopLoss takeProfit)

/-- C10: in EVERY execution of `ExecuteTrade` that reaches the broker (an
`ok` request), the request's take-profit field is 0 and the intended stage-1
target is carried only in the order comment (present there exactly when the
normalized command target is positive). -/
theorem C10_no_native_tp (cfg : EAConfig) (si : SymbolInfo)
    (ctx : ExecContext) (cmd : TradeCmd) (req : OpenRequest)
    (h : ExecuteTrade cfg si ctx cmd = .ok req) :
    req.tp = 0 ∧
    req.commentTp1 =
      (if normLevel si cmd.takeProfit > 0
        then some (normLevel si cmd.takeProfit)
        else none) := by
  unfold ExecuteTrade at h
  simp only [] at h
  repeat' split at h
  all_goals first
    | exact Except.noConfusion h
    | (injection h with h; subst h; exact ⟨rfl, rfl⟩)

/-- C10 witness command: BUY EURUSD with no stop and target 1.20000. -/
def c10Cmd : TradeCmd :=
  { symbol := "EURUSD", cmdType := "BUY", volume := 1 / 100, stopLoss := 0,
    takeProfit := 6 / 5 }

/-- C10 witness context: symbol ready, no open positions. -/
def c10Ctx : ExecContext :=
  { symbolReady := true, accountBalance := 10000, tickValue := 1,
    positions := [] }

/-- C10 witness configuration: fixed-lot sizing. -/
def c10Cfg : EAConfig := { eaCfg with useRiskBasedLotSize := false }

/-- The request the witness execution produces. -/
def c10Req : OpenRequest :=
  { symbol := "EURUSD", volume := 1 / 100, orderType := .buy,
    price := 11052 / 10000, sl := 0, tp := 0, commentTp1 := some (6 / 5) }

/-- C10 witness: a concrete successful execution — the submitted request has
tp = 0 while the 1.20000 target rides in the comment. -/
theorem C10_no_native_tp_witness :
    ExecuteTrade c10Cfg eurusdInfo c10Ctx c10Cmd = .ok c10Req ∧
    c10Req.tp = 0 ∧ c10Req.commentTp1 = some (6 / 5) := by
  have heval : ExecuteTrade c10Cfg eurusdInfo c10Ctx c10Cmd = .ok c10Req := by
    norm_num [ExecuteTrade, c10Cfg, eaCfg, eurusdInfo, c10Ctx, c10Cmd, c10Req,
      CountPositionsForSymbol, closeOppositePositions, hedgedPositions,
      currentPriceFor, normLevel, calcVolume0, mkOpenRequest, NormalizeVolume,
      NormalizePrice, normalizeDigits, mqlRound]
    rintro (hx | hx) <;> exact absurd hx (by decide)
  exact ⟨heval, (C10_no_native_tp c10Cfg eurusdInfo c10Ctx c10Cmd c10Req heval).1,
    rfl⟩

end Bridge
